import Mathlib

/-!
Verification development for the K-12 background-check interpreter core:
a shallow embedding, in Lean 4, of the code-normalizer (`parseCodeString`),
the local reference lookup (`lookupCode`), the multi-source verification
pipeline (`verifyCode`), the batch orchestrator
(`performComprehensiveAnalysis`), the classification aggregator
(`analyzeOffenses`, `generateSummary`), the retry combinator and
generative-analysis adapter (`withRetry`, `analyzeOffenseCode`) and the
chat-input sanitizer (`sanitizeInput`), together with theorems settling
the frozen specification claims.

External services (the Gemini retrieval oracle, the GPT analysis oracle,
the web-search LLM calls) are modelled as oracle parameters: an
`Except Unit α` value stands for one asynchronous call that either threw
(`.error ()`) or resolved (`.ok a`).  JavaScript `undefined` for an
optional field is modelled as `Option.none`; the JavaScript falsy `||`
for strings is modelled explicitly where the source uses it.
-/

set_option maxRecDepth 10000

namespace K12

/-- The five-valued `DisqualificationStatus` union from `codeLookup.ts`
(the two legacy members `review-required` and `unknown` included). -/
inductive DisqualificationStatus where
  | mandatoryDisqualifier
  | hasExemptionPath
  | reviewRequired
  | nonDisqualifying
  | unknown
deriving DecidableEq, Repr

/-- `ConfidenceLevel` union from `types/legal.ts`. -/
inductive ConfidenceLevel where
  | high
  | medium
  | low
deriving DecidableEq, Repr

/-- `VerificationSource` union from `types/legal.ts`. -/
inductive VerificationSource where
  | local
  | geminiRag
  | gpt52
  | webSearch
  | allSourcesExhausted
deriving DecidableEq, Repr

/-! ### Character classes of the JavaScript regexes in `parseCodeString`

The source (`codeLookup.ts`) matches the cleaned input against
`^(?:(\w+)\s+)?(\d+(?:\.\d+)?(?:\([a-z0-9]+\))*)(?:\s+(\w+))?$` (flag `i`)
and re-splits capture 2 against `^(\d+(?:\.\d+)?)((?:\([a-z0-9]+\))*)$`.
We embed these two anchored regexes as deterministic character-list
parsers.  Greedy matching with backtracking collapses to single greedy
runs here because every quantified class is disjoint from the class that
must follow it (digits vs `.`/`(`/space, word chars vs space), so a
shorter run always fails immediately; comments at each spot record the
argument. -/

/-- JS `\w` (ASCII): letters, digits, underscore. -/
def isWordChar (c : Char) : Bool := c.isAlphanum || c == '_'

/-- JS `\s` (the whitespace characters relevant to these inputs). -/
def isSpaceChar (c : Char) : Bool := c.isWhitespace

/-- JS `[a-z0-9]` under flag `i`: letters or digits (no underscore). -/
def isSubChar (c : Char) : Bool := c.isAlphanum

/-- The `/^\d{4}$/` test used for NCIC codes. -/
def isFourDigits (cs : List Char) : Bool := cs.length == 4 && cs.all Char.isDigit

/-- `(?:\.\d+)?` — consume `.` followed by one or more digits when present.
If the `.` is not followed by a digit the optional group is skipped (the
leftover `.` then fails every later regex element, exactly as the regex
engine's backtracking would conclude). -/
def matchFrac : List Char → (List Char × List Char)
  | [] => ([], [])
  | c :: r =>
    if c = '.' then
      let ds := r.takeWhile Char.isDigit
      if ds.isEmpty then ([], c :: r)
      else ('.' :: ds, r.dropWhile Char.isDigit)
    else ([], c :: r)

/-- `(?:\([a-z0-9]+\))*` — greedily consume parenthesised subdivision
groups.  Inside a group, `[a-z0-9]+` is a maximal alphanumeric run (the
following `)` is not alphanumeric, so no backtracking is possible). -/
def matchSubsAux : Nat → List Char → (List Char × List Char)
  | fuel + 1, c :: r =>
    if c = '(' then
      let inner := r.takeWhile isSubChar
      if inner.isEmpty then ([], c :: r)
      else
        match r.dropWhile isSubChar with
        | c2 :: r3 =>
          if c2 = ')' then
            match matchSubsAux fuel r3 with
            | (more, rest) => ('(' :: inner ++ ')' :: more, rest)
          else ([], c :: r)
        | [] => ([], c :: r)
    else ([], c :: r)
  | _, cs => ([], cs)

/-- Each consumed group spends at least three characters, so fuel equal to
the list length never runs out; the fuel only makes the recursion
structural. -/
def matchSubs (cs : List Char) : List Char × List Char :=
  matchSubsAux cs.length cs

/-- Captures of `(\d+(?:\.\d+)?(?:\([a-z0-9]+\))*)(?:\s+(\w+))?$`:
the code-number capture and the (possibly absent, rendered `[]`) trailing
statute-word capture. -/
structure CoreCaptures where
  num : List Char
  sfx : List Char
deriving DecidableEq, Repr

/-- Match `(\d+(?:\.\d+)?(?:\([a-z0-9]+\))*)(?:\s+(\w+))?$` at the head of
`cs`, consuming the whole list.  `\d+` is a maximal digit run (a shorter
run leaves a digit, which fails `\.`, `\(`, `\s` and `$` alike); `\s+`
before the suffix is a maximal space run (a shorter run leaves a space,
which fails `\w`). -/
def matchCore (cs : List Char) : Option CoreCaptures :=
  let ds := cs.takeWhile Char.isDigit
  let r1 := cs.dropWhile Char.isDigit
  if ds.isEmpty then none
  else
    match matchFrac r1 with
    | (fr, r2) =>
      match matchSubs r2 with
      | (sb, r3) =>
        match r3 with
        | [] => some ⟨ds ++ fr ++ sb, []⟩
        | _ =>
          let sp := r3.takeWhile isSpaceChar
          let r4 := r3.dropWhile isSpaceChar
          if sp.isEmpty then none
          else if r4.isEmpty then none
          else if r4.all isWordChar then some ⟨ds ++ fr ++ sb, r4⟩
          else none

/-- Captures of the full code pattern: prefix word, code number, suffix
word (absent captures rendered `[]`). -/
structure MainCaptures where
  pfx : List Char
  num : List Char
  sfx : List Char
deriving DecidableEq, Repr

/-- The `(?:(\w+)\s+)?` head tried with the optional group present: the
prefix `\w+` is a maximal word run (a shorter run leaves a word char,
failing `\s+`), followed by a maximal space run, then the core. -/
def matchWithPfx (cs : List Char) : Option MainCaptures :=
  let w := cs.takeWhile isWordChar
  let r1 := cs.dropWhile isWordChar
  if w.isEmpty then none
  else
    let sp := r1.takeWhile isSpaceChar
    let r2 := r1.dropWhile isSpaceChar
    if sp.isEmpty then none
    else (matchCore r2).map fun c => ⟨w, c.num, c.sfx⟩

/-- The anchored code pattern
`^(?:(\w+)\s+)?(\d+(?:\.\d+)?(?:\([a-z0-9]+\))*)(?:\s+(\w+))?$`:
the optional prefix group is greedy, so the with-prefix parse is
preferred and the without-prefix parse is the backtracking fallback. -/
def matchCodePattern (cs : List Char) : Option MainCaptures :=
  match matchWithPfx cs with
  | some m => some m
  | none => (matchCore cs).map fun c => ⟨[], c.num, c.sfx⟩

/-- The `baseMatch` regex `^(\d+(?:\.\d+)?)((?:\([a-z0-9]+\))*)$` used to
split a code number into base code and subdivision suffix. -/
def matchBase (cs : List Char) : Option (List Char × List Char) :=
  let ds := cs.takeWhile Char.isDigit
  let r1 := cs.dropWhile Char.isDigit
  if ds.isEmpty then none
  else
    match matchFrac r1 with
    | (fr, r2) =>
      match matchSubs r2 with
      | (sb, r3) => if r3.isEmpty then some (ds ++ fr, sb) else none

/-- `ParsedCode` interface from `codeLookup.ts`. -/
structure ParsedCode where
  rawCode : String
  normalizedCode : String
  statute : String
  subdivision : Option String := none
deriving DecidableEq, Repr

/-- JS `String.prototype.trim` on the character list: drop leading and
trailing whitespace. -/
def trimChars (cs : List Char) : List Char :=
  ((cs.dropWhile isSpaceChar).reverse.dropWhile isSpaceChar).reverse

/-- `input.trim().toUpperCase()` — the cleaning step of `parseCodeString`,
modelled at the character level. -/
def cleanInput (s : String) : String :=
  String.mk ((trimChars s.data).map Char.toUpper)

/-- `cleaned.replace(/\s+/g, '')` — the fallback normalization. -/
def removeSpaces (s : String) : String :=
  String.mk (s.data.filter fun c => !c.isWhitespace)

/-- The statute-letter arbitration of `parseCodeString`: the `let statute`
if/else-if chain over the captured prefix and suffix words (`prefix ||
suffix` models the JS string-falsy choice). -/
def statuteOf (pfx sfx : String) : String :=
  if pfx = "VC" ∨ sfx = "VC" then "VC"
  else if pfx = "HS" ∨ sfx = "HS" then "HS"
  else if pfx = "PC" ∨ sfx = "PC" then "PC"
  else if pfx = "BP" ∨ sfx = "BP" then "BP"
  else if pfx = "WI" ∨ sfx = "WI" then "WI"
  else if pfx ≠ "" ∨ sfx ≠ "" then (if pfx ≠ "" then pfx else sfx)
  else "PC"

/-- `parseCodeString` from `codeLookup.ts`: NCIC test, main code pattern
with base/subdivision re-split and statute-letter arbitration, and the
pass-through fallback. -/
def parseCodeString (input : String) : ParsedCode :=
  let cleaned := cleanInput input
  if isFourDigits cleaned.data then
    { rawCode := input, normalizedCode := cleaned, statute := "NCIC" }
  else
    match matchCodePattern cleaned.data with
    | some m =>
      let codeNum := String.mk m.num
      let base :=
        match matchBase m.num with
        | some (b, sdiv) =>
          (String.mk b, if sdiv.isEmpty then none else some (String.mk sdiv))
        | none => (codeNum, none)
      { rawCode := input, normalizedCode := base.1
        statute := statuteOf (String.mk m.pfx) (String.mk m.sfx)
        subdivision := base.2 }
    | none =>
      { rawCode := input, normalizedCode := removeSpaces cleaned,
        statute := "UNKNOWN" }

example : parseCodeString "484 PC" =
    { rawCode := "484 PC", normalizedCode := "484", statute := "PC" } := by decide
example : parseCodeString "PC 484" =
    { rawCode := "PC 484", normalizedCode := "484", statute := "PC" } := by decide
example : parseCodeString "667.5(c) PC" =
    { rawCode := "667.5(c) PC", normalizedCode := "667.5", statute := "PC",
      subdivision := some "(C)" } := by decide
example : parseCodeString "1301" =
    { rawCode := "1301", normalizedCode := "1301", statute := "NCIC" } := by decide
example : parseCodeString "23152 VC" =
    { rawCode := "23152 VC", normalizedCode := "23152", statute := "VC" } := by decide
example : parseCodeString "what" =
    { rawCode := "what", normalizedCode := "WHAT", statute := "UNKNOWN" } := by decide

/-! ### Local reference lookup (`lookupCode` from `codeLookup.ts`)

The static JSON tables (`ca-violent-felonies.json`, `ca-serious-felonies.json`,
`ca-penal-codes.json`, `ncic-codes.json`) are data imports; `lookupCode` is
embedded parametrically over a `LocalTables` value holding them.  The
concrete `specTables` below is *modelled from the spec* (the JSON files are
not part of the sources): spec §8's worked example fixes 211 PC = robbery =
violent felony, 484 PC = petty theft = non-disqualifying, 23152 VC = DUI =
has-exemption-path. -/

/-- One entry of `ncic-codes.json`'s `codes` record. -/
structure NcicEntry where
  description : String
  category : String
  k12Impact : DisqualificationStatus
deriving DecidableEq, Repr

/-- One entry of `ca-penal-codes.json`'s `codes` record. -/
structure PenalEntry where
  description : String
  category : String
  k12Impact : DisqualificationStatus
  citations : List String := []
  note : Option String := none
deriving DecidableEq, Repr

/-- One entry of `ca-violent-felonies.json`'s `offenses` array. -/
structure ViolentEntry where
  code : String
  description : String
  subdivision : String
  note : Option String := none
deriving DecidableEq, Repr

/-- One entry of `ca-serious-felonies.json`'s `offenses` array. -/
structure SeriousEntry where
  code : String
  description : String
  subdivision : String
  alsoViolent : Bool
  note : Option String := none
deriving DecidableEq, Repr

/-- The four static reference tables of `codeLookup.ts`.  The keyed JSON
records are association lists; the felony files are arrays searched with
`find`. -/
structure LocalTables where
  ncic : List (String × NcicEntry)
  penal : List (String × PenalEntry)
  violent : List ViolentEntry
  serious : List SeriousEntry
deriving Repr

/-- Keyed-record access `table[key]`: first (only) binding of the key. -/
def recGet {α : Type} (m : List (String × α)) (k : String) : Option α :=
  (m.find? fun p => p.1 == k).map Prod.snd

/-- `OffenseInfo` interface from `codeLookup.ts` (note: it has no
`verified` and no `confidence` field). -/
structure OffenseInfo where
  code : String
  statute : Option String := none
  description : String
  category : String
  k12Impact : DisqualificationStatus
  citations : Option (List String) := none
  note : Option String := none
  isViolentFelony : Bool
  isSeriousFelony : Bool
  exemptionAvailable : Bool
deriving DecidableEq, Repr

/-- `[...new Set(citations)]` — deduplicate keeping first occurrences. -/
def dedupKeepFirst : List String → List String
  | [] => []
  | c :: rest =>
    let tail := dedupKeepFirst rest
    c :: tail.filter fun x => x ≠ c

/-- The body of `lookupCode` past the NCIC branch: the penal-code /
violent-felony / serious-felony probes with the override sequence of the
source (penal info first, violent match overriding, serious match
overriding when no violent match), citation deduplication and the derived
flags. -/
def lookupCodeMain (t : LocalTables) (parsed : ParsedCode) : OffenseInfo :=
  let penalInfo := recGet t.penal parsed.normalizedCode
  let violentMatch := t.violent.find? fun o => o.code == parsed.normalizedCode
  let seriousMatch := t.serious.find? fun o => o.code == parsed.normalizedCode
  let isViolentFelony := violentMatch.isSome
  let isSeriousFelony := seriousMatch.isSome
  let k12Impact : DisqualificationStatus := .unknown
  let citations : List String := []
  let note : Option String := none
  let description := parsed.statute ++ " " ++ parsed.normalizedCode
  let category := "Other"
  let (description, category, k12Impact, citations, note) :=
    match penalInfo with
    | some p => (p.description, p.category, p.k12Impact, p.citations, p.note)
    | none => (description, category, k12Impact, citations, note)
  let (description, category, k12Impact, citations, note) :=
    match violentMatch with
    | some v =>
      (v.description, "Violent Felony", DisqualificationStatus.mandatoryDisqualifier,
       citations ++ ["PC 667.5" ++ v.subdivision],
       match v.note with | some n => some n | none => note)
    | none => (description, category, k12Impact, citations, note)
  let (description, category, k12Impact, citations, note) :=
    match seriousMatch, violentMatch with
    | some s, none =>
      (s.description, "Serious Felony",
       if s.alsoViolent then DisqualificationStatus.mandatoryDisqualifier
       else DisqualificationStatus.hasExemptionPath,
       citations ++ ["PC 1192.7" ++ s.subdivision],
       match s.note with | some n => some n | none => note)
    | _, _ => (description, category, k12Impact, citations, note)
  let citations := dedupKeepFirst citations
  { code := parsed.normalizedCode ++ (parsed.subdivision.getD "")
    statute := some parsed.statute
    description := description
    category := category
    k12Impact := k12Impact
    citations := if citations.length > 0 then some citations else none
    note := note
    isViolentFelony := isViolentFelony
    isSeriousFelony := isSeriousFelony
    exemptionAvailable :=
      k12Impact == .hasExemptionPath || (isSeriousFelony && !isViolentFelony) }

/-- `lookupCode` from `codeLookup.ts`: the NCIC branch (entered on the
`NCIC` statute or a four-digit normalized code, returning early on a
table hit), falling through to `lookupCodeMain`. -/
def lookupCode (t : LocalTables) (input : String) : OffenseInfo :=
  let parsed := parseCodeString input
  let ncicBranch : Option OffenseInfo :=
    if parsed.statute = "NCIC" ∨ isFourDigits parsed.normalizedCode.data then
      match recGet t.ncic parsed.normalizedCode with
      | some n =>
        some { code := parsed.normalizedCode
               statute := some "NCIC"
               description := n.description
               category := n.category
               k12Impact := n.k12Impact
               isViolentFelony :=
                 n.k12Impact == .mandatoryDisqualifier &&
                   ["Homicide", "Sex Offense", "Kidnapping", "Robbery"].contains n.category
               isSeriousFelony := n.k12Impact == .mandatoryDisqualifier
               exemptionAvailable := n.k12Impact == .reviewRequired }
      | none => none
    else none
  match ncicBranch with
  | some r => r
  | none => lookupCodeMain t parsed

/-- Modelled from the spec: the static reference data is absent from the
sources (only the JSON imports appear), so a concrete table set is built
from spec §8's worked example and §4.2's contract — 211 PC robbery on the
violent-felony list, 459 PC burglary on the serious-felony list, 484 PC
petty theft non-disqualifying and 23152 VC DUI with an exemption path in
the general table, and NCIC 1301 aggravated assault. -/
def specTables : LocalTables :=
  { ncic := [("1301", { description := "Aggravated Assault"
                        category := "Assault"
                        k12Impact := .mandatoryDisqualifier })]
    penal := [("484", { description := "Petty theft"
                        category := "Theft"
                        k12Impact := .nonDisqualifying
                        citations := ["PC 484"] }),
              ("23152", { description := "Driving under the influence"
                          category := "Vehicle"
                          k12Impact := .hasExemptionPath
                          citations := ["VC 23152"] }),
              ("211", { description := "Robbery"
                        category := "Robbery"
                        k12Impact := .mandatoryDisqualifier
                        citations := ["PC 211"] })]
    violent := [{ code := "211", description := "Robbery", subdivision := "(c)(9)" }]
    serious := [{ code := "459", description := "Burglary in the first degree",
                  subdivision := "(c)(18)", alsoViolent := false }] }

example : (lookupCode specTables "211 PC").k12Impact = .mandatoryDisqualifier := by decide
example : (lookupCode specTables "211 PC").isViolentFelony = true := by decide
example : (lookupCode specTables "484 PC").k12Impact = .nonDisqualifying := by decide
example : (lookupCode specTables "459 PC").k12Impact = .hasExemptionPath := by decide
example : (lookupCode specTables "459 PC").exemptionAvailable = true := by decide
example : (lookupCode specTables "1301").category = "Assault" := by decide
example : (lookupCode specTables "9999 XY").k12Impact = .unknown := by decide

/-! ### Verification pipeline (`verifyCode` from `services/analysis.ts`)

The three external stages are oracle parameters.  `Except Unit α` models
one awaited call: `.error ()` is a thrown exception (caught by the
stage's `try`/`catch`), `.ok a` a resolved value.  The Gemini stage's
resolved value is the `enriched.get(code)` map access (an `Option`), the
GPT stage's the destructured first element of `analyzeOffenseCodes([code])`
(an `Option`, mirroring the `gptAnalysis &&` guard), and the web stage's
the pair of raw `WebSearchResult`s the two search functions would
produce (`searchCode` itself is embedded below and never throws, matching
the source where both search functions catch internally). -/

/-- `RAGQueryResult` from `types/legal.ts`. -/
structure RAGQueryResult where
  code : String
  found : Bool
  statuteText : Option String := none
  description : Option String := none
  classification : Option String := none
  penalties : Option String := none
  citations : List String := []
deriving DecidableEq, Repr

/-- `AIAnalysisResult` from `types/legal.ts`.  `k12Classification` is
declared three-valued there, but runtime values come from unchecked casts
of LLM JSON and the source itself guards for the legacy
`'review-required'` value, so the field is modelled with the five-valued
status type. -/
structure AIAnalysisResult where
  code : String
  offenseDescription : String
  k12Classification : DisqualificationStatus
  explanation : String
  exemptionPathways : List String
  hrGuidance : String
  statuteCitations : List String
  confidence : ConfidenceLevel
deriving DecidableEq, Repr

/-- `VerifiedResult` from `types/legal.ts`. -/
structure VerifiedResult where
  code : String
  found : Bool
  source : VerificationSource
  confidence : ConfidenceLevel
  verified : Bool
  description : Option String := none
  classification : Option String := none
  statute : Option String := none
  statuteText : Option String := none
  penalties : Option String := none
  k12Impact : Option String := none
  citations : Option (List String) := none
  message : Option String := none
deriving DecidableEq, Repr

/-- `WebSearchResult` from `webSearch.ts`. -/
structure WebSearchResult where
  found : Bool
  code : String
  description : String
  classification : Option String := none
  statute : Option String := none
  statuteText : Option String := none
  penalties : Option String := none
  k12Impact : Option String := none
  citations : List String := []
  searchSources : List String := []
  error : Option String := none
deriving DecidableEq, Repr

/-- `webSearchToVerifiedResult` from `webSearch.ts`: fixed `web-search`
source, `medium`/`low` confidence by `found`, and `verified: true`
unconditionally. -/
def webSearchToVerifiedResult (r : WebSearchResult) : VerifiedResult :=
  { code := r.code
    found := r.found
    source := .webSearch
    confidence := if r.found then .medium else .low
    verified := true
    description := some r.description
    classification := r.classification
    statute := r.statute
    statuteText := r.statuteText
    penalties := r.penalties
    k12Impact := r.k12Impact
    citations := some r.citations
    message := some (if r.found then
        "Found via web search: " ++ String.intercalate ", " r.searchSources
      else "Code not found across all legal databases") }

/-- The raw results the two web-search LLM calls resolve to (both
functions catch internally and always return a `WebSearchResult`). -/
structure WebOracle where
  ncic : WebSearchResult
  legal : WebSearchResult
deriving DecidableEq, Repr

/-- `searchCode` from `webSearch.ts`: route by the `/^\d{4}$/` NCIC test
on the trimmed code, then convert the raw result. -/
def searchCode (code : String) (w : WebOracle) : VerifiedResult :=
  if isFourDigits (trimChars code.data) then webSearchToVerifiedResult w.ncic
  else webSearchToVerifiedResult w.legal

/-- One behaviour of the three external stages consulted by `verifyCode`
for one code. -/
structure Oracles where
  gemini : Except Unit (Option RAGQueryResult)
  gpt : Except Unit (Option AIAnalysisResult)
  web : Except Unit WebOracle

/-- JS property access `localResult.verified`: `OffenseInfo` declares no
such field and `lookupCode` never sets one, so the access yields
`undefined`, which is falsy in the `&&` guard. -/
def OffenseInfo.verifiedField (_ : OffenseInfo) : Bool := false

/-- Serialize a status for the string-typed `k12Impact` field of
`VerifiedResult`. -/
def DisqualificationStatus.toStr : DisqualificationStatus → String
  | .mandatoryDisqualifier => "mandatory-disqualifier"
  | .hasExemptionPath => "has-exemption-path"
  | .reviewRequired => "review-required"
  | .nonDisqualifying => "non-disqualifying"
  | .unknown => "unknown"

/-- Step 5 of `verifyCode`: the `all-sources-exhausted` terminal result. -/
def verifyCodeStep5 (code : String) : VerifiedResult :=
  { code := code
    found := false
    source := .allSourcesExhausted
    confidence := .high
    verified := true
    message := some ("Code verified as non-existent across all legal databases " ++
      "(Local, Gemini, GPT-5.2, Web Search)") }

/-- Step 4 of `verifyCode`: web-search fallback inside `try`/`catch`;
return the converted result when `webResult.found`, otherwise step 5. -/
def verifyCodeStep4 (code : String) (o : Oracles) : VerifiedResult :=
  match o.web with
  | .ok w =>
    let webResult := searchCode code w
    if webResult.found then webResult else verifyCodeStep5 code
  | .error _ => verifyCodeStep5 code

/-- Step 3 of `verifyCode`: the GPT stage inside `try`/`catch`; the guard
is `gptAnalysis && gptAnalysis.confidence !== 'low'`. -/
def verifyCodeStep3 (code : String) (o : Oracles) : VerifiedResult :=
  match o.gpt with
  | .ok (some a) =>
    if a.confidence ≠ .low then
      { code := code
        found := true
        source := .gpt52
        confidence := a.confidence
        verified := true
        description := some a.offenseDescription
        k12Impact := some a.hrGuidance
        citations := some a.statuteCitations
        message := some "Found via GPT-5.2 legal analysis" }
    else verifyCodeStep4 code o
  | _ => verifyCodeStep4 code o

/-- `verifyCode` from `services/analysis.ts`: local lookup with the dead
short-circuit guard (see `OffenseInfo.verifiedField`), then the Gemini
RAG stage, the GPT stage, the web-search stage — each in its own
`try`/`catch`, a thrown stage advancing the chain — and the
`all-sources-exhausted` terminal result. -/
def verifyCode (t : LocalTables) (code : String) (o : Oracles) : VerifiedResult :=
  let localResult := lookupCode t code
  if localResult.verifiedField then
    -- `localResult.verified && localResult.confidence === 'high'`:
    -- unreachable, `localResult.verified` is always `undefined`.
    { code := code
      found := true
      source := .local
      confidence := .high
      verified := true
      description := some localResult.description
      classification := some localResult.category
      statute := localResult.statute
      k12Impact := some localResult.k12Impact.toStr
      citations := localResult.citations
      message := some "Found in local database with high confidence" }
  else
    match o.gemini with
    | .ok (some r) =>
      if r.found then
        { code := code
          found := true
          source := .geminiRag
          confidence := .high
          verified := true
          description := r.description
          classification := r.classification
          statuteText := r.statuteText
          penalties := r.penalties
          citations := some r.citations
          message := some "Found via Gemini RAG knowledge retrieval" }
      else verifyCodeStep3 code o
    | _ => verifyCodeStep3 code o

/-- Association-list rendering of a JS `Map`'s `set`: overwrite the
binding in place when the key exists, append otherwise. -/
def mapSet {α : Type} : List (String × α) → String → α → List (String × α)
  | [], k, v => [(k, v)]
  | (k', v') :: rest, k, v =>
    if k' == k then (k', v) :: rest else (k', v') :: mapSet rest k v

/-- `verifyCodes` from `services/analysis.ts`: verify in parallel
(`Promise.all` keeps submission order), then key the results by
`result.code` in a `Map`. -/
def verifyCodes (t : LocalTables) (oraclesOf : String → Oracles)
    (codes : List String) : List (String × VerifiedResult) :=
  let results := codes.map fun code => verifyCode t code (oraclesOf code)
  results.foldl (fun m r => mapSet m r.code r) []

/-! ### Generative-analysis adapter (`openai.ts`): retry and fallback -/

/-- JS `x || d` for a possibly-`undefined` string: `undefined` and `""`
are falsy. -/
def jsOrStr (a : Option String) (d : String) : String :=
  match a with
  | some s => if s = "" then d else s
  | none => d

/-- The completion response as far as `analyzeOffenseCode` reads it:
`response.choices[0]?.message?.content`. -/
structure ChatResponse where
  content : Option String
deriving DecidableEq, Repr

/-- The parsed JSON object of one analysis response; every field may be
absent. -/
structure RawAnalysis where
  offenseDescription : Option String := none
  k12Classification : Option DisqualificationStatus := none
  explanation : Option String := none
  exemptionPathways : Option (List String) := none
  hrGuidance : Option String := none
  statuteCitations : Option (List String) := none
  confidence : Option ConfidenceLevel := none
deriving DecidableEq, Repr

/-- `withRetry` from `openai.ts`, over the outcomes of the successive
attempts: try attempts `0, 1, …` up to the retry budget, return the first
success, rethrow the last error when the budget is exhausted (the
exponential-backoff delays do not affect the value). -/
def withRetryAux (attempts : Nat → Except Unit ChatResponse) :
    Nat → Nat → Except Unit ChatResponse
  | _, 0 => .error ()
  | attempt, fuel + 1 =>
    match attempts attempt with
    | .ok a => .ok a
    | .error _ => withRetryAux attempts (attempt + 1) fuel

/-- `withRetry(fn, maxRetries)` starting at attempt 0. -/
def withRetry (attempts : Nat → Except Unit ChatResponse)
    (maxRetries : Nat) : Except Unit ChatResponse :=
  withRetryAux attempts 0 maxRetries

/-- The conservative fallback record of `analyzeOffenseCode`'s `catch`. -/
def fallbackAnalysis (code : String) : AIAnalysisResult :=
  { code := code
    offenseDescription := "Offense code " ++ code ++ " - requires legal verification"
    k12Classification := .hasExemptionPath
    explanation := "Unable to complete automated analysis. This offense may have exemption pathways available."
    exemptionPathways := ["Certificate of Rehabilitation",
                          "Consult legal counsel for verification"]
    hrGuidance := "Consult with legal counsel to determine eligibility and available exemption pathways."
    statuteCitations := ["Education Code 44830.1", "Education Code 45122.1"]
    confidence := .low }

/-- `analyzeOffenseCode` from `openai.ts`: the completion call under
`withRetry` with budget 3, the falsy-content throw, `JSON.parse`
(modelled by the `parseJson` oracle), the legacy `review-required`
remapping and per-field defaults — any failure caught into the
conservative fallback record, so the function always *returns*. -/
def analyzeOffenseCode (attempts : Nat → Except Unit ChatResponse)
    (parseJson : String → Except Unit RawAnalysis) (code : String) :
    AIAnalysisResult :=
  match withRetry attempts 3 with
  | .error _ => fallbackAnalysis code
  | .ok resp =>
    match resp.content with
    | none => fallbackAnalysis code        -- `if (!content) throw ...`, caught
    | some content =>
      if content = "" then fallbackAnalysis code
      else
        match parseJson content with
        | .error _ => fallbackAnalysis code
        | .ok parsed =>
          let classification :=
            match parsed.k12Classification with
            | some .reviewRequired => some DisqualificationStatus.hasExemptionPath
            | c => c
          { code := code
            offenseDescription := jsOrStr parsed.offenseDescription "Unknown offense"
            k12Classification := classification.getD .hasExemptionPath
            explanation := jsOrStr parsed.explanation ""
            exemptionPathways := parsed.exemptionPathways.getD []
            hrGuidance := jsOrStr parsed.hrGuidance ""
            statuteCitations := parsed.statuteCitations.getD []
            confidence := parsed.confidence.getD .medium }

/-- `analyzeOffenseCodes` from `openai.ts` (the RAG context only shapes
the prompt): one analysis per code, in submission order. -/
def analyzeOffenseCodes (attemptsOf : String → Nat → Except Unit ChatResponse)
    (parseJson : String → Except Unit RawAnalysis) (codes : List String) :
    List AIAnalysisResult :=
  codes.map fun code => analyzeOffenseCode (attemptsOf code) parseJson code

/-! ### Guardrail sanitizer (`openai.ts`): PII patterns

The four `PII_PATTERNS` regexes are embedded as position matchers
returning the length matched at a given position (with the previous
character carried for `\b`).  JS `String.replace` with a non-global
regex rewrites only the first (leftmost) match; `test` is a leftmost
scan. -/

/-- Is the previous character a word character (for `\b`)? -/
def prevIsWord : Option Char → Bool
  | some c => isWordChar c
  | none => false

/-- Does the remaining text start with a word character (for a trailing
`\b`)? -/
def headIsWord : List Char → Bool
  | c :: _ => isWordChar c
  | [] => false

/-- `[-.\s]` — the optional SSN/DOB separator class. -/
def isSepChar (c : Char) : Bool := c == '-' || c == '.' || c.isWhitespace

/-- Consume exactly `n` digits. -/
def takeDigitsC : Nat → List Char → Option (List Char)
  | 0, cs => some cs
  | n + 1, c :: cs => if c.isDigit then takeDigitsC n cs else none
  | _ + 1, [] => none

/-- Consume `[-.\s]?` (greedy; no backtracking is needed because a
separator character can never satisfy the following `\d`). -/
def optSep : List Char → List Char
  | c :: r => if isSepChar c then r else c :: r
  | [] => []

/-- `\b\d{3}[-.\s]?\d{2}[-.\s]?\d{4}\b` at one position; returns the
matched length. -/
def ssnAt (prev : Option Char) (cs : List Char) : Option Nat :=
  if prevIsWord prev then none
  else
    match takeDigitsC 3 cs with
    | none => none
    | some r1 =>
      match takeDigitsC 2 (optSep r1) with
      | none => none
      | some r2 =>
        match takeDigitsC 4 (optSep r2) with
        | none => none
        | some rest => if headIsWord rest then none else some (cs.length - rest.length)

/-- `\b\d{2}\/\d{2}\/\d{4}\b` at one position. -/
def dobSlashAt (prev : Option Char) (cs : List Char) : Option Nat :=
  if prevIsWord prev then none
  else
    match takeDigitsC 2 cs with
    | none => none
    | some r1 =>
      match r1 with
      | '/' :: r1' =>
        match takeDigitsC 2 r1' with
        | none => none
        | some r2 =>
          match r2 with
          | '/' :: r2' =>
            match takeDigitsC 4 r2' with
            | none => none
            | some rest =>
              if headIsWord rest then none else some (cs.length - rest.length)
          | _ => none
      | _ => none

/-- `\b\d{2}-\d{2}-\d{4}\b` at one position. -/
def dobDashAt (prev : Option Char) (cs : List Char) : Option Nat :=
  if prevIsWord prev then none
  else
    match takeDigitsC 2 cs with
    | none => none
    | some r1 =>
      match r1 with
      | '-' :: r1' =>
        match takeDigitsC 2 r1' with
        | none => none
        | some r2 =>
          match r2 with
          | '-' :: r2' =>
            match takeDigitsC 4 r2' with
            | none => none
            | some rest =>
              if headIsWord rest then none else some (cs.length - rest.length)
          | _ => none
      | _ => none

/-- `[A-Z]` / `[a-z]` (the name pattern has no `i` flag). -/
def isUpperAZ (c : Char) : Bool := 'A' ≤ c && c ≤ 'Z'

def isLowerAZ (c : Char) : Bool := 'a' ≤ c && c ≤ 'z'

/-- `\b[A-Z][a-z]+ [A-Z][a-z]+\b` at one position.  Each `[a-z]+` is a
maximal lowercase run: a shorter first run leaves a lowercase character
that fails the literal space, a shorter second run leaves a word
character that fails the trailing `\b`. -/
def nameAt (prev : Option Char) (cs : List Char) : Option Nat :=
  if prevIsWord prev then none
  else
    match cs with
    | c1 :: r1 =>
      if isUpperAZ c1 then
        let low1 := r1.takeWhile isLowerAZ
        let r2 := r1.dropWhile isLowerAZ
        if low1.isEmpty then none
        else
          match r2 with
          | ' ' :: c2 :: r4 =>
            if isUpperAZ c2 then
              let low2 := r4.takeWhile isLowerAZ
              let r5 := r4.dropWhile isLowerAZ
              if low2.isEmpty then none
              else if headIsWord r5 then none
              else some (cs.length - r5.length)
            else none
          | _ => none
      else none
    | [] => none

/-- Leftmost-match scan: try the matcher at every position from the left,
carrying the previous character for `\b`; returns position and length. -/
def findFrom (m : Option Char → List Char → Option Nat) :
    Option Char → Nat → List Char → Option (Nat × Nat)
  | prev, i, cs =>
    match m prev cs with
    | some len => some (i, len)
    | none =>
      match cs with
      | [] => none
      | c :: rest => findFrom m (some c) (i + 1) rest

/-- JS `pattern.test(s)`. -/
def regexTest (m : Option Char → List Char → Option Nat) (s : String) : Bool :=
  (findFrom m none 0 s.data).isSome

/-- JS `s.replace(pattern, '[REDACTED]')` for a non-global pattern:
rewrite the leftmost match only. -/
def replaceFirst (m : Option Char → List Char → Option Nat) (s : String) : String :=
  match findFrom m none 0 s.data with
  | none => s
  | some (i, len) =>
    String.mk (s.data.take i ++ "[REDACTED]".data ++ s.data.drop (i + len))

/-- `PII_PATTERNS` from `openai.ts`: SSN, slash DOB, dash DOB, full-name
patterns, in source order. -/
def PII_PATTERNS : List (Option Char → List Char → Option Nat) :=
  [ssnAt, dobSlashAt, dobDashAt, nameAt]

/-- `containsPII` from `openai.ts`. -/
def containsPII (s : String) : Bool := PII_PATTERNS.any fun p => regexTest p s

/-- `sanitizeInput` from `openai.ts`: a warning when PII is detected,
then one first-match replacement per pattern, in order. -/
def sanitizeInput (s : String) : String × List String :=
  let warnings : List String :=
    if containsPII s then ["Personal information detected and removed for privacy."]
    else []
  let sanitized := PII_PATTERNS.foldl (fun acc p => replaceFirst p acc) s
  (sanitized, warnings)

example : (sanitizeInput "SSN 123-45-6789 for John Smith").1 =
    "SSN [REDACTED] for [REDACTED]" := by decide
example : regexTest ssnAt (sanitizeInput "SSN 123-45-6789 for John Smith").1 = false := by
  decide
example :
    (sanitizeInput "SSN 123-45-6789 and SSN 987-65-4321 for John Smith").1 =
      "SSN [REDACTED] and SSN 987-65-4321 for [REDACTED]" := by decide
example : containsPII "offense code 484 PC" = false := by decide

/-! ### Classification aggregator (`disqualificationCheck.ts`, current
variant: the one that normalizes `review-required`/`unknown`) -/

/-- `EducationalResource` interface. -/
structure EducationalResource where
  title : String
  description : String
  type : String
  url : Option String := none
deriving DecidableEq, Repr

/-- The static `educationalResources` array (descriptions abbreviated to
their titles' resources; only `title` is ever inspected by
`analyzeOffenses`, via `includes` on title lists). -/
def educationalResources : List EducationalResource :=
  [{ title := "Certificate of Rehabilitation"
     description := "A court order declaring that a person convicted of a felony is rehabilitated."
     type := "process", url := some "https://www.courts.ca.gov/1044.htm" },
   { title := "Governor's Pardon"
     description := "A pardon from the Governor restores civil and political rights."
     type := "process", url := some "https://www.gov.ca.gov/clemency/" },
   { title := "Education Code 44830.1"
     description := "Defines disqualifying offenses for certificated K-12 employees."
     type := "statute"
     url := some "https://leginfo.legislature.ca.gov/faces/codes_displaySection.xhtml?sectionNum=44830.1&lawCode=EDC" },
   { title := "Education Code 45122.1"
     description := "Defines disqualifying offenses for classified K-12 employees."
     type := "statute"
     url := some "https://leginfo.legislature.ca.gov/faces/codes_displaySection.xhtml?sectionNum=45122.1&lawCode=EDC" },
   { title := "California Fair Chance Act"
     description := "Prohibits employers from asking about criminal history before a conditional offer."
     type := "resource", url := some "https://calcivilrights.ca.gov/fair-chance-act/" },
   { title := "Penal Code 667.5(c) - Violent Felonies"
     description := "The complete list of offenses defined as violent felonies under California law."
     type := "statute"
     url := some "https://leginfo.legislature.ca.gov/faces/codes_displaySection.xhtml?sectionNum=667.5.&lawCode=PEN" },
   { title := "Penal Code 1192.7(c) - Serious Felonies"
     description := "The complete list of offenses defined as serious felonies under California law."
     type := "statute"
     url := some "https://leginfo.legislature.ca.gov/faces/codes_displaySection.xhtml?sectionNum=1192.7&lawCode=PEN" }]

/-- `DisqualificationAnalysis` interface (current variant). -/
structure DisqualificationAnalysis where
  overallStatus : DisqualificationStatus
  mandatoryDisqualifiers : List OffenseInfo
  hasExemptionPath : List OffenseInfo
  nonDisqualifying : List OffenseInfo
  recommendations : List String
  educationalResources : List EducationalResource
deriving DecidableEq, Repr

/-- The per-record normalization step of `analyzeOffenses`:
`review-required` and `unknown` map to `has-exemption-path`. -/
def normalizeOffense (o : OffenseInfo) : OffenseInfo :=
  { o with k12Impact :=
      if o.k12Impact = .reviewRequired ∨ o.k12Impact = .unknown then
        .hasExemptionPath
      else o.k12Impact }

/-- `analyzeOffenses` from `disqualificationCheck.ts` (current variant):
normalize, group by status, worst-case-wins overall status,
recommendation strings, and the resource selection. -/
def analyzeOffenses (offenses : List OffenseInfo) : DisqualificationAnalysis :=
  let normalizedOffenses := offenses.map normalizeOffense
  let mandatoryDisqualifiers :=
    normalizedOffenses.filter fun o => o.k12Impact == .mandatoryDisqualifier
  let hasExemptionPath :=
    normalizedOffenses.filter fun o => o.k12Impact == .hasExemptionPath
  let nonDisqualifying :=
    normalizedOffenses.filter fun o => o.k12Impact == .nonDisqualifying
  let overallStatus : DisqualificationStatus :=
    if mandatoryDisqualifiers.length > 0 then .mandatoryDisqualifier
    else if hasExemptionPath.length > 0 then .hasExemptionPath
    else .nonDisqualifying
  let recommendations : List String :=
    (if mandatoryDisqualifiers.length > 0 then
      ["One or more offenses are mandatory disqualifiers under California Education Code 44830.1 or 45122.1.",
       "Check if the applicant has obtained a Certificate of Rehabilitation and Pardon, which may provide an exemption.",
       "Consult with legal counsel before making a final determination."]
    else []) ++
    (if hasExemptionPath.length > 0 ∧ mandatoryDisqualifiers.length = 0 then
      ["Some offenses may have exemption pathways available.",
       "Request documentation of any Certificate of Rehabilitation or court findings of rehabilitation.",
       "Use the decision framework questions to guide individualized assessment."]
    else []) ++
    (if nonDisqualifying.length > 0 ∧ mandatoryDisqualifiers.length = 0 ∧
        hasExemptionPath.length = 0 then
      ["The offenses found are not automatic disqualifiers for K-12 employment.",
       "Consider using the decision framework for a fair, individualized assessment."]
    else []) ++
    (if offenses.length = 0 then
      ["No criminal offenses were identified in the analysis."]
    else [])
  let relevantResources := educationalResources.filter fun r =>
    if mandatoryDisqualifiers.length > 0 then
      ["Certificate of Rehabilitation", "Governor's Pardon",
       "Education Code 44830.1", "Education Code 45122.1"].contains r.title
    else if hasExemptionPath.length > 0 then true
    else if nonDisqualifying.length > 0 then
      ["California Fair Chance Act"].contains r.title
    else false
  { overallStatus := overallStatus
    mandatoryDisqualifiers := mandatoryDisqualifiers
    hasExemptionPath := hasExemptionPath
    nonDisqualifying := nonDisqualifying
    recommendations := recommendations
    educationalResources := relevantResources }

/-! ### Batch orchestrator and summary (`services/analysis.ts`) -/

/-- `AnalysisSummary` interface. -/
structure AnalysisSummary where
  totalCodes : Nat
  mandatoryDisqualifiers : Nat
  hasExemptionPath : Nat
  nonDisqualifying : Nat
  overallRecommendation : String
deriving DecidableEq, Repr

/-- `OffenseCodeInfo` interface from `types/legal.ts` (`category`, like
`k12Classification`, modelled five-valued, see `AIAnalysisResult`). -/
structure OffenseCodeInfo where
  code : String
  codeType : String
  description : String
  category : DisqualificationStatus
  statute : Option String := none
  statuteText : Option String := none
  penalties : Option String := none
  exemptionInfo : String
  k12Impact : String
  citations : List String
  verificationSource : Option VerificationSource := none
  verificationConfidence : Option ConfidenceLevel := none
  verified : Bool
deriving DecidableEq, Repr

/-- Prefix test for the substring search of `detectCodeType`. -/
def startsWithL : List Char → List Char → Bool
  | [], _ => true
  | _ :: _, [] => false
  | p :: ps, c :: cs => p == c && startsWithL ps cs

/-- JS `String.prototype.includes`. -/
def containsSubAux (pat : List Char) : List Char → Bool
  | [] => pat.isEmpty
  | c :: rest => startsWithL pat (c :: rest) || containsSubAux pat rest

def strIncludes (s pat : String) : Bool := containsSubAux pat.data s.data

/-- `detectCodeType` from `services/analysis.ts`. -/
def detectCodeType (code : String) : String :=
  let upperCode := String.mk (code.data.map Char.toUpper)
  if strIncludes upperCode "PC" then "PC"
  else if strIncludes upperCode "HS" then "HS"
  else if strIncludes upperCode "VC" then "VC"
  else if strIncludes upperCode "BP" then "BP"
  else if strIncludes upperCode "WI" then "WI"
  else if strIncludes upperCode "FC" then "FC"
  else if isFourDigits (trimChars code.data) then "NCIC"
  else "unknown"

/-- `getRelevantStatute` from `services/analysis.ts`. -/
def getRelevantStatute (category : DisqualificationStatus) : String :=
  match category with
  | .mandatoryDisqualifier =>
    "Education Code 44830.1 / 45122.1; PC 667.5(c) or PC 1192.7(c)"
  | .hasExemptionPath =>
    "Education Code 44830.1 / 45122.1; PC 4852.01 (Certificate of Rehabilitation)"
  | .nonDisqualifying => "Not subject to Education Code disqualification"
  | _ => "Education Code 44830.1 / 45122.1"

/-- One step of `generateSummary`'s counting loop: remap legacy
`review-required`, then the three-case `switch` (any other value falls
through uncounted). -/
def summaryTally (counts : Nat × Nat × Nat) (a : AIAnalysisResult) :
    Nat × Nat × Nat :=
  let classification :=
    if a.k12Classification = .reviewRequired then DisqualificationStatus.hasExemptionPath
    else a.k12Classification
  match classification with
  | .mandatoryDisqualifier => (counts.1 + 1, counts.2.1, counts.2.2)
  | .hasExemptionPath => (counts.1, counts.2.1 + 1, counts.2.2)
  | .nonDisqualifying => (counts.1, counts.2.1, counts.2.2 + 1)
  | _ => counts

/-- `generateSummary` from `services/analysis.ts`. -/
def generateSummary (codes : List OffenseCodeInfo)
    (analyses : List AIAnalysisResult) : AnalysisSummary :=
  let counts := analyses.foldl summaryTally (0, 0, 0)
  let overallRecommendation :=
    if counts.1 > 0 then
      "This background check contains " ++ toString counts.1 ++
        " mandatory disqualifier(s) under California Education Code. The candidate cannot be employed in K-12 positions unless exemptions apply. Consult legal counsel for verification."
    else if counts.2.1 > 0 then
      "This background check contains offenses that may have exemption pathways. Review Certificate of Rehabilitation options and consult legal counsel to determine eligibility."
    else
      "This background check contains no automatic disqualifiers for K-12 employment. Standard hiring procedures may proceed with consideration of the Fair Chance Act."
  { totalCodes := codes.length
    mandatoryDisqualifiers := counts.1
    hasExemptionPath := counts.2.1
    nonDisqualifying := counts.2.2
    overallRecommendation := overallRecommendation }

/-- `EnrichedCodeInfo` from `rag.ts` as far as the orchestrator reads it. -/
structure EnrichedCodeInfo where
  ragResult : RAGQueryResult
  k12Rules : String := ""
  contextForAI : String := ""
deriving DecidableEq, Repr

/-- `ComprehensiveAnalysis` from `services/analysis.ts` (the `Date`
timestamp is outside the embedding). -/
structure ComprehensiveAnalysis where
  codes : List OffenseCodeInfo
  aiAnalysis : List AIAnalysisResult
  summary : AnalysisSummary
  verificationResults : List (String × VerifiedResult)
deriving DecidableEq, Repr

/-- JS `a || b` where both operands may be `undefined` strings. -/
def jsOrOpt (a b : Option String) : Option String :=
  match a with
  | some s => if s = "" then b else some s
  | none => b

/-- `codes.map((code, index) => …)`. -/
def mapWithIndex {α β : Type} (f : Nat → α → β) : Nat → List α → List β
  | _, [] => []
  | i, a :: as => f i a :: mapWithIndex f (i + 1) as

/-- `performComprehensiveAnalysis` from `services/analysis.ts`, for a run
in which the enrichment fan-out resolved (a rejected enrichment would
reject the whole call; no claim concerns that path): build the enrichment
map, run the per-code GPT analyses and the verification pipeline, then
join the three result sets by submission index / code key into the
per-code records and summarize. -/
def performComprehensiveAnalysis (t : LocalTables)
    (oraclesOf : String → Oracles) (enrichOf : String → EnrichedCodeInfo)
    (attemptsOf : String → Nat → Except Unit ChatResponse)
    (parseJson : String → Except Unit RawAnalysis)
    (codes : List String) : ComprehensiveAnalysis :=
  let enrichedCodes := codes.foldl (fun m c => mapSet m c (enrichOf c)) []
  let aiAnalysis := analyzeOffenseCodes attemptsOf parseJson codes
  let verificationResults := verifyCodes t oraclesOf codes
  let offenseInfos := mapWithIndex (fun index code =>
    let enriched := recGet enrichedCodes code
    -- `aiAnalysis[index]`: in range because `analyzeOffenseCodes` maps
    -- over the same `codes`; the default is never used.
    let analysis := aiAnalysis.getD index (fallbackAnalysis code)
    let verification := recGet verificationResults code
    { code := code
      codeType := detectCodeType code
      description := analysis.offenseDescription
      category := analysis.k12Classification
      statute := some (getRelevantStatute analysis.k12Classification)
      statuteText := jsOrOpt (enriched.bind fun e => e.ragResult.statuteText)
        (verification.bind fun v => v.statuteText)
      penalties := jsOrOpt (enriched.bind fun e => e.ragResult.penalties)
        (verification.bind fun v => v.penalties)
      exemptionInfo := String.intercalate "\n" analysis.exemptionPathways
      k12Impact := analysis.hrGuidance
      citations := analysis.statuteCitations
      verificationSource := verification.map fun v => v.source
      verificationConfidence := verification.map fun v => v.confidence
      verified := (verification.map fun v => v.verified).getD false })
    0 codes
  let summary := generateSummary offenseInfos aiAnalysis
  { codes := offenseInfos
    aiAnalysis := aiAnalysis
    summary := summary
    verificationResults := verificationResults }

/-! ## Theorems -/

/-! ### Pipeline lemmas shared by the `verifyCode` claims -/

theorem verifyCodeStep5_verified (code : String) :
    (verifyCodeStep5 code).verified = true := rfl

theorem verifyCodeStep4_verified (code : String) (o : Oracles) :
    (verifyCodeStep4 code o).verified = true := by
  unfold verifyCodeStep4
  cases o.web with
  | error e => rfl
  | ok w =>
    simp only [searchCode, webSearchToVerifiedResult]
    split <;> split <;> rfl

theorem verifyCodeStep3_verified (code : String) (o : Oracles) :
    (verifyCodeStep3 code o).verified = true := by
  unfold verifyCodeStep3
  cases h : o.gpt with
  | error e => exact verifyCodeStep4_verified code o
  | ok a =>
    cases a with
    | none => exact verifyCodeStep4_verified code o
    | some a =>
      by_cases hc : a.confidence ≠ .low
      · simp [hc]
      · simp [hc, verifyCodeStep4_verified code o]

/-- Claim C10: every `VerifiedResult` returned by `verifyCode` has
`verified = true`, for every code, every table content and every oracle
behaviour — in the web-search branch because `webSearchToVerifiedResult`
sets `verified: true` unconditionally, and in the
`all-sources-exhausted` branch (where `found = false`) as well; the flag
never distinguishes a found code from a not-found one. -/
theorem verifyCode_always_verified (t : LocalTables) (code : String)
    (o : Oracles) : (verifyCode t code o).verified = true := by
  unfold verifyCode
  simp only [OffenseInfo.verifiedField, Bool.false_eq_true, if_false]
  cases h : o.gemini with
  | error e => exact verifyCodeStep3_verified code o
  | ok r =>
    cases r with
    | none => exact verifyCodeStep3_verified code o
    | some r =>
      by_cases hf : r.found
      · simp [hf]
      · simp [hf, verifyCodeStep3_verified code o]

/-- Claim C2: if the Gemini stage throws or reports not-found, the GPT
stage throws or reports low confidence, and the web stage throws or its
search result has `found = false`, then `verifyCode` (a total function —
it cannot throw to its caller) returns the `all-sources-exhausted`
result: `found = false` and `confidence = high`.  The local-lookup
hypothesis of the claim is omitted because the local stage can never
report a high-confidence hit (see `OffenseInfo.verifiedField`), so the
conclusion holds for every code. -/
theorem verifyCode_exhausted (t : LocalTables) (code : String) (o : Oracles)
    (hg : ∀ r, o.gemini = .ok (some r) → r.found = false)
    (hp : ∀ a, o.gpt = .ok (some a) → a.confidence = .low)
    (hw : ∀ w, o.web = .ok w → (searchCode code w).found = false) :
    (verifyCode t code o).source = .allSourcesExhausted ∧
    (verifyCode t code o).found = false ∧
    (verifyCode t code o).confidence = .high := by
  have hstep4 : verifyCodeStep4 code o = verifyCodeStep5 code := by
    unfold verifyCodeStep4
    cases h : o.web with
    | error e => rfl
    | ok w => simp [hw w h]
  have hstep3 : verifyCodeStep3 code o = verifyCodeStep5 code := by
    unfold verifyCodeStep3
    cases h : o.gpt with
    | error e => exact hstep4
    | ok a =>
      cases a with
      | none => exact hstep4
      | some a => simp [hp a h, hstep4]
  have hmain : verifyCode t code o = verifyCodeStep5 code := by
    unfold verifyCode
    simp only [OffenseInfo.verifiedField, Bool.false_eq_true, if_false]
    cases h : o.gemini with
    | error e => exact hstep3
    | ok r =>
      cases r with
      | none => exact hstep3
      | some r => simp [hg r h, hstep3]
  rw [hmain]
  exact ⟨rfl, rfl, rfl⟩

/-- A closed witness for `verifyCode_exhausted`: the oracle set in which
every stage throws. -/
def allThrowOracles : Oracles :=
  { gemini := .error (), gpt := .error (), web := .error () }

theorem verifyCode_exhausted_witness :
    (∀ r, allThrowOracles.gemini = .ok (some r) → r.found = false) ∧
    (∀ a, allThrowOracles.gpt = .ok (some a) → a.confidence = .low) ∧
    (∀ w, allThrowOracles.web = .ok w → (searchCode "9999 XY" w).found = false) ∧
    ((verifyCode specTables "9999 XY" allThrowOracles).source = .allSourcesExhausted ∧
     (verifyCode specTables "9999 XY" allThrowOracles).found = false ∧
     (verifyCode specTables "9999 XY" allThrowOracles).confidence = .high) := by
  have h1 : ∀ r, allThrowOracles.gemini = .ok (some r) → r.found = false :=
    fun r h => nomatch h
  have h2 : ∀ a, allThrowOracles.gpt = .ok (some a) → a.confidence = .low :=
    fun a h => nomatch h
  have h3 : ∀ w, allThrowOracles.web = .ok w →
      (searchCode "9999 XY" w).found = false := fun w h => nomatch h
  exact ⟨h1, h2, h3, verifyCode_exhausted specTables "9999 XY" allThrowOracles h1 h2 h3⟩

/-- A Gemini oracle behaviour that reports a found retrieval result. -/
def geminiFoundOracles : Oracles :=
  { gemini := .ok (some { code := "211 PC", found := true,
                          description := some "Robbery" })
    gpt := .error ()
    web := .error () }

/-- Claim C1 (code bug): `"211 PC"` is, per the spec-modelled tables, a
verified high-confidence local hit (robbery, violent felony,
`mandatory-disqualifier`), yet for *every* oracle behaviour `verifyCode`
returns one of the four non-local sources — the step-1 guard reads
`localResult.verified`, a field `OffenseInfo` does not declare and
`lookupCode` never sets, so the local short-circuit is dead code — and
with a Gemini oracle that answers found, the returned source is
`gemini-rag`, i.e. the external oracle is consulted and its answer used
even for a local high-confidence hit. -/
theorem verifyCode_local_shortcircuit_dead :
    (lookupCode specTables "211 PC").isViolentFelony = true ∧
    (lookupCode specTables "211 PC").k12Impact = .mandatoryDisqualifier ∧
    (∀ o : Oracles, (verifyCode specTables "211 PC" o).source ∈
      [VerificationSource.geminiRag, VerificationSource.gpt52,
       VerificationSource.webSearch, VerificationSource.allSourcesExhausted]) ∧
    (verifyCode specTables "211 PC" geminiFoundOracles).source = .geminiRag := by
  refine ⟨by decide, by decide, ?_, by decide⟩
  intro o
  have hstep4 : (verifyCodeStep4 "211 PC" o).source ∈
      [VerificationSource.geminiRag, VerificationSource.gpt52,
       VerificationSource.webSearch, VerificationSource.allSourcesExhausted] := by
    unfold verifyCodeStep4
    cases o.web with
    | error e => simp [verifyCodeStep5]
    | ok w =>
      simp only [searchCode, webSearchToVerifiedResult]
      split <;> split <;> simp [verifyCodeStep5]
  have hstep3 : (verifyCodeStep3 "211 PC" o).source ∈
      [VerificationSource.geminiRag, VerificationSource.gpt52,
       VerificationSource.webSearch, VerificationSource.allSourcesExhausted] := by
    unfold verifyCodeStep3
    cases o.gpt with
    | error e => exact hstep4
    | ok a =>
      cases a with
      | none => exact hstep4
      | some a =>
        by_cases hc : a.confidence ≠ .low
        · simp [hc]
        · simp [hc, hstep4]
  unfold verifyCode
  simp only [OffenseInfo.verifiedField, Bool.false_eq_true, if_false]
  cases o.gemini with
  | error e => exact hstep3
  | ok r =>
    cases r with
    | none => exact hstep3
    | some r =>
      by_cases hf : r.found
      · simp [hf]
      · simp [hf, hstep3]

/-! ### Batch claims -/

/-- Claim C6: when every attempt of the internal retry budget (3) fails,
`analyzeOffenseCode` *returns* (it is a total function; the source
catches every failure) the conservative default record:
`has-exemption-path` classification (in particular not
`non-disqualifying`), `low` confidence, and HR guidance instructing the
user to consult legal counsel. -/
theorem analyzeOffenseCode_conservative_fallback
    (attempts : Nat → Except Unit ChatResponse)
    (parseJson : String → Except Unit RawAnalysis) (code : String)
    (h : ∀ i, i < 3 → attempts i = .error ()) :
    analyzeOffenseCode attempts parseJson code = fallbackAnalysis code ∧
    (analyzeOffenseCode attempts parseJson code).k12Classification =
      .hasExemptionPath ∧
    (analyzeOffenseCode attempts parseJson code).confidence = .low ∧
    (analyzeOffenseCode attempts parseJson code).hrGuidance =
      "Consult with legal counsel to determine eligibility and available exemption pathways." := by
  have hret : withRetry attempts 3 = .error () := by
    unfold withRetry withRetryAux
    rw [h 0 (by omega)]
    unfold withRetryAux
    rw [h 1 (by omega)]
    unfold withRetryAux
    rw [h 2 (by omega)]
    rfl
  have hmain : analyzeOffenseCode attempts parseJson code = fallbackAnalysis code := by
    unfold analyzeOffenseCode
    rw [hret]
  exact ⟨hmain, by rw [hmain]; rfl, by rw [hmain]; rfl, by rw [hmain]; rfl⟩

/-- An attempt oracle whose every attempt throws. -/
def failAttempts : Nat → Except Unit ChatResponse := fun _ => .error ()

/-- A JSON-parse oracle that always throws. -/
def failParse : String → Except Unit RawAnalysis := fun _ => .error ()

theorem analyzeOffenseCode_fallback_witness :
    (∀ i, i < 3 → failAttempts i = .error ()) ∧
    (analyzeOffenseCode failAttempts failParse "484 PC" =
       fallbackAnalysis "484 PC" ∧
     (analyzeOffenseCode failAttempts failParse "484 PC").k12Classification =
       .hasExemptionPath ∧
     (analyzeOffenseCode failAttempts failParse "484 PC").confidence = .low ∧
     (analyzeOffenseCode failAttempts failParse "484 PC").hrGuidance =
       "Consult with legal counsel to determine eligibility and available exemption pathways.") := by
  have h : ∀ i, i < 3 → failAttempts i = .error () := fun i _ => rfl
  exact ⟨h, analyzeOffenseCode_conservative_fallback failAttempts failParse "484 PC" h⟩

theorem mapWithIndex_map_eq {α β : Type} (f : Nat → α → β) (g : β → α)
    (h : ∀ i a, g (f i a) = a) :
    ∀ (l : List α) (i : Nat), (mapWithIndex f i l).map g = l := by
  intro l
  induction l with
  | nil => intro i; rfl
  | cons a as ih =>
    intro i
    simp only [mapWithIndex, List.map_cons, h i a, ih (i + 1)]

/-- Claim C7: for every input code list (duplicates permitted — nothing
deduplicates the list itself), the orchestrator's output record list maps
position-wise back to the input: the record at position `i` carries the
code submitted at position `i` (hence also equal lengths).  The
concurrent fan-outs are joined by submission index / per-code key, never
reordered. -/
theorem batch_output_aligned (t : LocalTables) (oraclesOf : String → Oracles)
    (enrichOf : String → EnrichedCodeInfo)
    (attemptsOf : String → Nat → Except Unit ChatResponse)
    (parseJson : String → Except Unit RawAnalysis) (codes : List String) :
    ((performComprehensiveAnalysis t oraclesOf enrichOf attemptsOf parseJson
        codes).codes.map fun r => r.code) = codes := by
  unfold performComprehensiveAnalysis
  exact mapWithIndex_map_eq _ (fun r : OffenseCodeInfo => r.code)
    (fun i a => rfl) codes 0

example :
    ((performComprehensiveAnalysis specTables (fun _ => allThrowOracles)
        (fun c => ({ ragResult := { code := c, found := false } } : EnrichedCodeInfo))
        (fun _ => failAttempts) failParse
        ["484 PC", "211 PC", "484 PC"]).codes.map fun r : OffenseCodeInfo => r.code) =
      ["484 PC", "211 PC", "484 PC"] := by decide

/-! ### Aggregator claims -/

theorem norm_eq_mand (o : OffenseInfo) :
    ((normalizeOffense o).k12Impact == DisqualificationStatus.mandatoryDisqualifier) =
      (o.k12Impact == DisqualificationStatus.mandatoryDisqualifier) := by
  cases h : o.k12Impact <;> simp [normalizeOffense, h]

theorem norm_eq_exempt (o : OffenseInfo) :
    ((normalizeOffense o).k12Impact == DisqualificationStatus.hasExemptionPath) =
      (o.k12Impact == DisqualificationStatus.hasExemptionPath ||
       o.k12Impact == DisqualificationStatus.reviewRequired ||
       o.k12Impact == DisqualificationStatus.unknown) := by
  cases h : o.k12Impact <;> simp [normalizeOffense, h] <;> decide

theorem filter_length_pos_iff {α : Type} (p : α → Bool) (l : List α) :
    0 < (l.filter p).length ↔ l.any p = true := by
  induction l with
  | nil => simp
  | cons a as ih =>
    cases hpa : p a <;> simp [List.filter_cons, hpa, ih]

/-- The overall status exactly as claim C3 words it: `mandatory-disqualifier`
when some record is `mandatory-disqualifier`, otherwise
`has-exemption-path` when some record is `has-exemption-path`, otherwise
`non-disqualifying`. -/
def claimC3OverallStatus (offenses : List OffenseInfo) : DisqualificationStatus :=
  if offenses.any (fun o => o.k12Impact == .mandatoryDisqualifier) then
    .mandatoryDisqualifier
  else if offenses.any (fun o => o.k12Impact == .hasExemptionPath) then
    .hasExemptionPath
  else .nonDisqualifying

/-- A record whose classification is the legacy `unknown` value. -/
def unknownOffense : OffenseInfo :=
  { code := "9999", description := "Unclassified offense", category := "Other"
    k12Impact := .unknown, isViolentFelony := false, isSeriousFelony := false
    exemptionAvailable := false }

/-- Counterexample to claim C3 as stated: on a single record with the
legacy `unknown` status, the aggregator reports `has-exemption-path`
(it normalizes `unknown` first) while the claim's formula, in which no
record is `has-exemption-path`, prescribes `non-disqualifying`. -/
theorem analyzeOffenses_unknown_cex :
    (analyzeOffenses [unknownOffense]).overallStatus =
      DisqualificationStatus.hasExemptionPath ∧
    claimC3OverallStatus [unknownOffense] =
      DisqualificationStatus.nonDisqualifying := by decide

/-- Claim C3 (amended): the aggregator's overall status is worst-case-wins
with `mandatory-disqualifier` before `has-exemption-path` before
`non-disqualifying`, where a record counts toward `has-exemption-path`
also when it carries a legacy `review-required` or `unknown` value
(normalized first); the empty sequence yields `non-disqualifying` with a
recommendation noting that zero offenses were found. -/
theorem analyzeOffenses_worst_case_wins :
    (∀ offenses : List OffenseInfo,
      (analyzeOffenses offenses).overallStatus =
        (if offenses.any (fun o => o.k12Impact == .mandatoryDisqualifier) then
          DisqualificationStatus.mandatoryDisqualifier
        else if offenses.any (fun o => o.k12Impact == .hasExemptionPath ||
            o.k12Impact == .reviewRequired || o.k12Impact == .unknown) then
          DisqualificationStatus.hasExemptionPath
        else DisqualificationStatus.nonDisqualifying)) ∧
    (analyzeOffenses []).overallStatus = DisqualificationStatus.nonDisqualifying ∧
    "No criminal offenses were identified in the analysis." ∈
      (analyzeOffenses []).recommendations := by
  refine ⟨?_, by decide, by decide⟩
  intro offenses
  have hm : (0 < ((offenses.map normalizeOffense).filter
      (fun o => o.k12Impact == DisqualificationStatus.mandatoryDisqualifier)).length) ↔
      (offenses.any (fun o => o.k12Impact == DisqualificationStatus.mandatoryDisqualifier)
        = true) := by
    rw [filter_length_pos_iff, List.any_map]
    have he : ((fun o : OffenseInfo =>
        o.k12Impact == DisqualificationStatus.mandatoryDisqualifier) ∘ normalizeOffense) =
        (fun o : OffenseInfo =>
          o.k12Impact == DisqualificationStatus.mandatoryDisqualifier) :=
      funext fun o => norm_eq_mand o
    rw [he]
  have hx : (0 < ((offenses.map normalizeOffense).filter
      (fun o => o.k12Impact == DisqualificationStatus.hasExemptionPath)).length) ↔
      (offenses.any (fun o => o.k12Impact == DisqualificationStatus.hasExemptionPath ||
        o.k12Impact == DisqualificationStatus.reviewRequired ||
        o.k12Impact == DisqualificationStatus.unknown) = true) := by
    rw [filter_length_pos_iff, List.any_map]
    have he : ((fun o : OffenseInfo =>
        o.k12Impact == DisqualificationStatus.hasExemptionPath) ∘ normalizeOffense) =
        (fun o : OffenseInfo =>
          o.k12Impact == DisqualificationStatus.hasExemptionPath ||
          o.k12Impact == DisqualificationStatus.reviewRequired ||
          o.k12Impact == DisqualificationStatus.unknown) :=
      funext fun o => norm_eq_exempt o
    rw [he]
  unfold analyzeOffenses
  simp only []
  by_cases h1 : offenses.any
      (fun o => o.k12Impact == DisqualificationStatus.mandatoryDisqualifier) = true
  · simp [hm.2 h1, h1]
  · have h1' : ¬ 0 < ((offenses.map normalizeOffense).filter
        (fun o => o.k12Impact == DisqualificationStatus.mandatoryDisqualifier)).length :=
      fun hc => h1 (hm.1 hc)
    by_cases h2 : offenses.any
        (fun o => o.k12Impact == DisqualificationStatus.hasExemptionPath ||
          o.k12Impact == DisqualificationStatus.reviewRequired ||
          o.k12Impact == DisqualificationStatus.unknown) = true
    · simp [h1', h1, hx.2 h2, h2]
    · have h2' : ¬ 0 < ((offenses.map normalizeOffense).filter
          (fun o => o.k12Impact == DisqualificationStatus.hasExemptionPath)).length :=
        fun hc => h2 (hx.1 hc)
      simp [h1', h1, h2', h2]

theorem aggregator_group_partition (l : List OffenseInfo) :
    ((l.map normalizeOffense).filter
        (fun o => o.k12Impact == DisqualificationStatus.mandatoryDisqualifier)).length +
    ((l.map normalizeOffense).filter
        (fun o => o.k12Impact == DisqualificationStatus.hasExemptionPath)).length +
    ((l.map normalizeOffense).filter
        (fun o => o.k12Impact == DisqualificationStatus.nonDisqualifying)).length =
      l.length := by
  induction l with
  | nil => rfl
  | cons o rest ih =>
    simp only [List.map_cons, List.filter_cons, List.length_cons]
    cases h : o.k12Impact <;> simp [normalizeOffense, h] <;> omega

theorem aggregator_exempt_count (l : List OffenseInfo) :
    ((l.map normalizeOffense).filter
        (fun o => o.k12Impact == DisqualificationStatus.hasExemptionPath)).length =
      l.countP (fun o => o.k12Impact == DisqualificationStatus.hasExemptionPath ||
        o.k12Impact == DisqualificationStatus.reviewRequired ||
        o.k12Impact == DisqualificationStatus.unknown) := by
  induction l with
  | nil => rfl
  | cons o rest ih =>
    simp only [List.map_cons, List.filter_cons, List.countP_cons]
    cases h : o.k12Impact <;> simp [normalizeOffense, h] <;> omega

theorem foldl_tally_counts (analyses : List AIAnalysisResult) :
    ∀ acc : Nat × Nat × Nat,
      analyses.foldl summaryTally acc =
        (acc.1 + analyses.countP
           (fun a => a.k12Classification == DisqualificationStatus.mandatoryDisqualifier),
         acc.2.1 + analyses.countP
           (fun a => a.k12Classification == DisqualificationStatus.hasExemptionPath ||
             a.k12Classification == DisqualificationStatus.reviewRequired),
         acc.2.2 + analyses.countP
           (fun a => a.k12Classification == DisqualificationStatus.nonDisqualifying)) := by
  induction analyses with
  | nil => intro acc; simp
  | cons a rest ih =>
    intro acc
    rw [List.foldl_cons, ih]
    simp only [List.countP_cons]
    cases h : a.k12Classification <;>
      simp [summaryTally, h, Prod.ext_iff] <;> omega

theorem countP_classification_cover (analyses : List AIAnalysisResult)
    (h : ∀ a ∈ analyses, a.k12Classification ≠ DisqualificationStatus.unknown) :
    analyses.countP
        (fun a => a.k12Classification == DisqualificationStatus.mandatoryDisqualifier) +
    analyses.countP
        (fun a => a.k12Classification == DisqualificationStatus.hasExemptionPath ||
          a.k12Classification == DisqualificationStatus.reviewRequired) +
    analyses.countP
        (fun a => a.k12Classification == DisqualificationStatus.nonDisqualifying) =
      analyses.length := by
  induction analyses with
  | nil => rfl
  | cons a rest ih =>
    have ha := h a (by simp)
    have hrest : ∀ x ∈ rest, x.k12Classification ≠ DisqualificationStatus.unknown :=
      fun x hx => h x (by simp [hx])
    have ihr := ih hrest
    simp only [List.countP_cons, List.length_cons]
    cases hk : a.k12Classification with
    | unknown => exact absurd hk ha
    | mandatoryDisqualifier => simp [hk]; omega
    | hasExemptionPath => simp [hk]; omega
    | reviewRequired => simp [hk]; omega
    | nonDisqualifying => simp [hk]; omega

/-- An analysis record whose classification is the (unhandled) `unknown`
value. -/
def unknownAnalysis : AIAnalysisResult :=
  { code := "9999", offenseDescription := "Unclassified offense"
    k12Classification := .unknown, explanation := "", exemptionPathways := []
    hrGuidance := "", statuteCitations := [], confidence := .low }

/-- A minimal per-code record to pair with `unknownAnalysis`. -/
def unknownCodeInfo : OffenseCodeInfo :=
  { code := "9999", codeType := "unknown", description := "Unclassified offense"
    category := .unknown, exemptionInfo := "", k12Impact := "", citations := []
    verified := false }

/-- Counterexample to claim C4 as stated: `generateSummary` counts
`review-required` under `has-exemption-path` but simply drops a record
classified `unknown` — with one such record, all three counts are zero
while `totalCodes` is one, so the record is counted under none of the
three user-facing counts and the count identity fails. -/
theorem generateSummary_unknown_cex :
    (generateSummary [unknownCodeInfo] [unknownAnalysis]).totalCodes = 1 ∧
    (generateSummary [unknownCodeInfo] [unknownAnalysis]).hasExemptionPath = 0 ∧
    (generateSummary [unknownCodeInfo] [unknownAnalysis]).mandatoryDisqualifiers +
      (generateSummary [unknownCodeInfo] [unknownAnalysis]).hasExemptionPath +
      (generateSummary [unknownCodeInfo] [unknownAnalysis]).nonDisqualifying = 0 := by
  decide

/-- Claim C4 (amended): the aggregator groups every record — legacy
`review-required`/`unknown` ones under `has-exemption-path` — so its
three groups partition the input; `generateSummary` normalizes only
`review-required` into the `has-exemption-path` count, so its three
counts sum to `totalCodes` for index-aligned inputs whenever no
classification is `unknown` (an `unknown` record is dropped from all
three counts, see the counterexample). -/
theorem legacy_status_normalization :
    (∀ offenses : List OffenseInfo,
      (analyzeOffenses offenses).mandatoryDisqualifiers.length +
        (analyzeOffenses offenses).hasExemptionPath.length +
        (analyzeOffenses offenses).nonDisqualifying.length = offenses.length ∧
      (analyzeOffenses offenses).hasExemptionPath.length =
        offenses.countP (fun o => o.k12Impact == DisqualificationStatus.hasExemptionPath ||
          o.k12Impact == DisqualificationStatus.reviewRequired ||
          o.k12Impact == DisqualificationStatus.unknown)) ∧
    (∀ (codes : List OffenseCodeInfo) (analyses : List AIAnalysisResult),
      codes.length = analyses.length →
      (∀ a ∈ analyses, a.k12Classification ≠ DisqualificationStatus.unknown) →
      (generateSummary codes analyses).mandatoryDisqualifiers +
        (generateSummary codes analyses).hasExemptionPath +
        (generateSummary codes analyses).nonDisqualifying =
        (generateSummary codes analyses).totalCodes ∧
      (generateSummary codes analyses).hasExemptionPath =
        analyses.countP
          (fun a => a.k12Classification == DisqualificationStatus.hasExemptionPath ||
            a.k12Classification == DisqualificationStatus.reviewRequired)) := by
  constructor
  · intro offenses
    constructor
    · unfold analyzeOffenses
      exact aggregator_group_partition offenses
    · unfold analyzeOffenses
      exact aggregator_exempt_count offenses
  · intro codes analyses hlen hno
    have hc : analyses.foldl summaryTally (0, 0, 0) =
        (analyses.countP
           (fun a => a.k12Classification == DisqualificationStatus.mandatoryDisqualifier),
         analyses.countP
           (fun a => a.k12Classification == DisqualificationStatus.hasExemptionPath ||
             a.k12Classification == DisqualificationStatus.reviewRequired),
         analyses.countP
           (fun a => a.k12Classification == DisqualificationStatus.nonDisqualifying)) := by
      rw [foldl_tally_counts]
      simp
    constructor
    · show (analyses.foldl summaryTally (0, 0, 0)).1 +
        (analyses.foldl summaryTally (0, 0, 0)).2.1 +
        (analyses.foldl summaryTally (0, 0, 0)).2.2 = codes.length
      rw [hc, hlen]
      exact countP_classification_cover analyses hno
    · show (analyses.foldl summaryTally (0, 0, 0)).2.1 = _
      rw [hc]

/-- An analysis record carrying the legacy `review-required`
classification. -/
def reviewAnalysis : AIAnalysisResult :=
  { code := "23152", offenseDescription := "DUI"
    k12Classification := .reviewRequired, explanation := "", exemptionPathways := []
    hrGuidance := "", statuteCitations := [], confidence := .medium }

/-- A per-code record to pair with `reviewAnalysis`. -/
def reviewCodeInfo : OffenseCodeInfo :=
  { code := "23152", codeType := "VC", description := "DUI"
    category := .reviewRequired, exemptionInfo := "", k12Impact := "", citations := []
    verified := false }

theorem legacy_status_normalization_witness :
    ([reviewCodeInfo].length = [reviewAnalysis].length ∧
     (∀ a ∈ [reviewAnalysis], a.k12Classification ≠ DisqualificationStatus.unknown)) ∧
    ((generateSummary [reviewCodeInfo] [reviewAnalysis]).mandatoryDisqualifiers +
       (generateSummary [reviewCodeInfo] [reviewAnalysis]).hasExemptionPath +
       (generateSummary [reviewCodeInfo] [reviewAnalysis]).nonDisqualifying =
       (generateSummary [reviewCodeInfo] [reviewAnalysis]).totalCodes ∧
     (generateSummary [reviewCodeInfo] [reviewAnalysis]).hasExemptionPath =
       [reviewAnalysis].countP
         (fun a => a.k12Classification == DisqualificationStatus.hasExemptionPath ||
           a.k12Classification == DisqualificationStatus.reviewRequired)) := by
  have h1 : [reviewCodeInfo].length = [reviewAnalysis].length := by decide
  have h2 : ∀ a ∈ [reviewAnalysis],
      a.k12Classification ≠ DisqualificationStatus.unknown := by decide
  exact ⟨⟨h1, h2⟩,
    legacy_status_normalization.2 [reviewCodeInfo] [reviewAnalysis] h1 h2⟩

/-! ### Sanitizer claims -/

/-- The spec's sanitizer example input. -/
def piiExample : String := "SSN 123-45-6789 for John Smith"

/-- An input containing two SSN-like spans. -/
def piiDouble : String := "SSN 123-45-6789 and SSN 987-65-4321 for John Smith"

/-- Counterexample to claim C9 as stated: the PII regexes carry no global
flag, so `replace` rewrites only the first match per pattern — on an
input with two SSN-like spans the sanitized output still contains an
SSN-like span (the warnings list is nevertheless non-empty). -/
theorem sanitizeInput_second_ssn_survives :
    regexTest ssnAt piiDouble = true ∧
    (sanitizeInput piiDouble).1 =
      "SSN [REDACTED] and SSN 987-65-4321 for [REDACTED]" ∧
    regexTest ssnAt (sanitizeInput piiDouble).1 = true ∧
    (sanitizeInput piiDouble).2 ≠ [] := by decide

/-- Claim C9 (amended): for every input in which an SSN-like span occurs
the sanitizer returns a non-empty warnings list, and it replaces only the
leftmost span matched by each PII pattern (each pattern is applied once,
without a global flag), so the spec's single-SSN example is fully
redacted — no SSN-like span remains in its output — while a later
occurrence of the same pattern can survive (see the counterexample). -/
theorem sanitizeInput_redacts_and_warns :
    (∀ s : String, regexTest ssnAt s = true → (sanitizeInput s).2 ≠ []) ∧
    (regexTest ssnAt (sanitizeInput piiExample).1 = false ∧
     (sanitizeInput piiExample).1 = "SSN [REDACTED] for [REDACTED]" ∧
     (sanitizeInput piiExample).2 ≠ []) := by
  refine ⟨?_, by decide, by decide, by decide⟩
  intro s h
  have hpii : containsPII s = true := by
    unfold containsPII
    rw [List.any_eq_true]
    exact ⟨ssnAt, by simp [PII_PATTERNS], h⟩
  unfold sanitizeInput
  simp [hpii]

theorem sanitizeInput_warns_witness :
    regexTest ssnAt piiExample = true ∧ (sanitizeInput piiExample).2 ≠ [] :=
  ⟨by decide, sanitizeInput_redacts_and_warns.1 piiExample (by decide)⟩

/-! ### Local-lookup invariant (claim C5) -/

theorem recGet_mem {α : Type} {m : List (String × α)} {k : String} {v : α}
    (h : recGet m k = some v) : (k, v) ∈ m := by
  unfold recGet at h
  cases hf : m.find? fun pr => pr.1 == k with
  | none => rw [hf] at h; nomatch h
  | some pr =>
    rw [hf] at h
    have hp := List.find?_some hf
    have hmem : pr ∈ m := List.mem_of_find?_eq_some hf
    have hk : pr.1 = k := by simpa using hp
    have hv : pr.2 = v := by simpa using h
    have hpr : pr = (k, v) := by
      cases pr
      simp_all
    rw [hpr] at hmem
    exact hmem

theorem lookupCodeMain_invariant (t : LocalTables) (parsed : ParsedCode)
    (hpen : ∀ p ∈ t.penal, p.2.k12Impact = DisqualificationStatus.mandatoryDisqualifier →
      (∃ v ∈ t.violent, v.code = p.1) ∨ (∃ s ∈ t.serious, s.code = p.1)) :
    ((lookupCodeMain t parsed).isViolentFelony = true →
      (lookupCodeMain t parsed).k12Impact = DisqualificationStatus.mandatoryDisqualifier) ∧
    ((lookupCodeMain t parsed).k12Impact = DisqualificationStatus.mandatoryDisqualifier →
      (lookupCodeMain t parsed).isViolentFelony = false →
      (lookupCodeMain t parsed).isSeriousFelony = true) := by
  unfold lookupCodeMain
  simp only []
  cases hv : t.violent.find? fun o => o.code == parsed.normalizedCode with
  | some v =>
    cases hs : t.serious.find? fun o => o.code == parsed.normalizedCode with
    | some s =>
      cases hp : recGet t.penal parsed.normalizedCode <;> simp
    | none =>
      cases hp : recGet t.penal parsed.normalizedCode <;> simp
  | none =>
    cases hs : t.serious.find? fun o => o.code == parsed.normalizedCode with
    | some s =>
      cases hp : recGet t.penal parsed.normalizedCode <;> simp
    | none =>
      cases hp : recGet t.penal parsed.normalizedCode with
      | some p =>
        simp only []
        constructor
        · intro h
          nomatch h
        · intro hk _
          exfalso
          have hmem : (parsed.normalizedCode, p) ∈ t.penal := recGet_mem hp
          rcases hpen _ hmem hk with ⟨w, hw, hcode⟩ | ⟨w, hw, hcode⟩
          · have := List.find?_eq_none.1 hv w hw
            simp [hcode] at this
          · have := List.find?_eq_none.1 hs w hw
            simp [hcode] at this
      | none =>
        simp only []
        refine ⟨?_, ?_⟩
        · intro h
          nomatch h
        · intro hk
          nomatch hk

/-- Claim C5: for every table set in which a general penal-code entry
classified `mandatory-disqualifier` is always backed by a violent- or
serious-felony list entry for the same normalized code (the situation of
the shipped reference data, per the spec's invariant), every
`OffenseInfo` produced by `lookupCode` satisfies
`isViolentFelony → k12Impact = mandatory-disqualifier` and
`k12Impact = mandatory-disqualifier ∧ ¬isViolentFelony → isSeriousFelony`. -/
theorem lookupCode_classification_invariant (t : LocalTables) (input : String)
    (hpen : ∀ p ∈ t.penal, p.2.k12Impact = DisqualificationStatus.mandatoryDisqualifier →
      (∃ v ∈ t.violent, v.code = p.1) ∨ (∃ s ∈ t.serious, s.code = p.1)) :
    ((lookupCode t input).isViolentFelony = true →
      (lookupCode t input).k12Impact = DisqualificationStatus.mandatoryDisqualifier) ∧
    ((lookupCode t input).k12Impact = DisqualificationStatus.mandatoryDisqualifier →
      (lookupCode t input).isViolentFelony = false →
      (lookupCode t input).isSeriousFelony = true) := by
  unfold lookupCode
  simp only []
  by_cases hcond : (parseCodeString input).statute = "NCIC" ∨
      isFourDigits (parseCodeString input).normalizedCode.data
  · simp only [hcond, if_true]
    cases hn : recGet t.ncic (parseCodeString input).normalizedCode with
    | some n =>
      simp only []
      constructor
      · intro h
        simp only [Bool.and_eq_true, beq_iff_eq] at h
        exact h.1
      · intro _ _
        simp_all
    | none =>
      exact lookupCodeMain_invariant t (parseCodeString input) hpen
  · simp only [hcond, if_false]
    exact lookupCodeMain_invariant t (parseCodeString input) hpen

theorem lookupCode_invariant_witness :
    (∀ p ∈ specTables.penal,
      p.2.k12Impact = DisqualificationStatus.mandatoryDisqualifier →
      (∃ v ∈ specTables.violent, v.code = p.1) ∨
      (∃ s ∈ specTables.serious, s.code = p.1)) ∧
    (((lookupCode specTables "211 PC").isViolentFelony = true →
       (lookupCode specTables "211 PC").k12Impact =
         DisqualificationStatus.mandatoryDisqualifier) ∧
     ((lookupCode specTables "211 PC").k12Impact =
         DisqualificationStatus.mandatoryDisqualifier →
       (lookupCode specTables "211 PC").isViolentFelony = false →
       (lookupCode specTables "211 PC").isSeriousFelony = true)) := by
  have h : ∀ p ∈ specTables.penal,
      p.2.k12Impact = DisqualificationStatus.mandatoryDisqualifier →
      (∃ v ∈ specTables.violent, v.code = p.1) ∨
      (∃ s ∈ specTables.serious, s.code = p.1) := by decide
  exact ⟨h, lookupCode_classification_invariant specTables "211 PC" h⟩

/-! ### Normalizer commutativity (claim C8)

`"N L"` and `"L N"` for a valid statute number `N` and a statute letter
pair `L` parse to the same normalized code, subdivision and statute
type.  A valid number is rendered from its integer part, optional
fractional part and subdivision groups. -/

/-- Render the optional `.digits` fractional part. -/
def fracRender : Option (List Char) → List Char
  | none => []
  | some f => '.' :: f

/-- Render the subdivision groups. -/
def subsRender : List (List Char) → List Char
  | [] => []
  | s :: ss => '(' :: s ++ ')' :: subsRender ss

/-- A structured valid statute number: digits, optional `.digits`, and
parenthesised alphanumeric subdivision groups. -/
structure ValidNum where
  intPart : List Char
  frac : Option (List Char) := none
  subs : List (List Char) := []
deriving DecidableEq, Repr

def ValidNum.render (n : ValidNum) : List Char :=
  n.intPart ++ fracRender n.frac ++ subsRender n.subs

/-- Well-formedness: a nonempty all-digit integer part, a nonempty
all-digit fractional part when present, and nonempty alphanumeric
subdivision bodies. -/
@[reducible] def ValidNum.Wf (n : ValidNum) : Prop :=
  n.intPart ≠ [] ∧ (∀ c ∈ n.intPart, c.isDigit = true) ∧
  (match n.frac with
   | none => True
   | some f => f ≠ [] ∧ ∀ c ∈ f, c.isDigit = true) ∧
  (∀ s ∈ n.subs, s ≠ [] ∧ ∀ c ∈ s, isSubChar c = true)

theorem takeWhile_app_all (p : Char → Bool) (xs ys : List Char)
    (hxs : ∀ x ∈ xs, p x = true)
    (hys : ∀ c cs, ys = c :: cs → p c = false) :
    (xs ++ ys).takeWhile p = xs ∧ (xs ++ ys).dropWhile p = ys := by
  induction xs with
  | nil =>
    simp only [List.nil_append]
    cases ys with
    | nil => simp
    | cons c cs =>
      simp [List.takeWhile_cons, List.dropWhile_cons, hys c cs rfl]
  | cons x xs ih =>
    have hx := hxs x (by simp)
    have hxs' : ∀ y ∈ xs, p y = true := fun y hy => hxs y (by simp [hy])
    have h12 := ih hxs'
    simp [List.takeWhile_cons, List.dropWhile_cons, hx, h12.1, h12.2]

theorem wordChar_of_digit {c : Char} (h : c.isDigit = true) :
    isWordChar c = true := by
  simp [isWordChar, Char.isAlphanum, h]

theorem not_space_of_word {c : Char} (h : isWordChar c = true) :
    isSpaceChar c = false := by
  cases hs : isSpaceChar c with
  | false => rfl
  | true =>
    exfalso
    have hc : ((c = ' ' ∨ c = '\t') ∨ c = '\u000d') ∨ c = '\n' := by
      simpa [isSpaceChar, Char.isWhitespace] using hs
    rcases hc with ((h1 | h1) | h1) | h1 <;> subst h1 <;> exact absurd h (by decide)

theorem not_digit_of_word_false {c : Char} (h : isWordChar c = false) :
    c.isDigit = false := by
  cases hd : c.isDigit with
  | false => rfl
  | true => rw [wordChar_of_digit hd] at h; nomatch h

theorem matchFrac_render (f : Option (List Char)) (rest : List Char)
    (hf : match f with
          | none => True
          | some l => l ≠ [] ∧ ∀ c ∈ l, c.isDigit = true)
    (hrest : ∀ c cs, rest = c :: cs → c.isDigit = false ∧ c ≠ '.') :
    matchFrac (fracRender f ++ rest) = (fracRender f, rest) := by
  cases f with
  | none =>
    simp only [fracRender, List.nil_append]
    cases rest with
    | nil => rfl
    | cons c cs =>
      have hc := (hrest c cs rfl).2
      unfold matchFrac
      dsimp only
      rw [if_neg hc]
  | some l =>
    simp only [fracRender, List.cons_append]
    unfold matchFrac
    dsimp only
    rw [if_pos rfl]
    have hsplit := takeWhile_app_all Char.isDigit l rest hf.2
      (fun c cs h => (hrest c cs h).1)
    rw [hsplit.1, hsplit.2]
    have hne : l.isEmpty = false := by
      cases l with
      | nil => exact absurd rfl hf.1
      | cons a as => rfl
    rw [hne]
    simp

theorem subsRender_length_ge (subs : List (List Char)) :
    subs.length ≤ (subsRender subs).length := by
  induction subs with
  | nil => simp [subsRender]
  | cons s ss ih => simp [subsRender]; omega

theorem matchSubsAux_render (subs : List (List Char)) (tail : List Char)
    (hwf : ∀ s ∈ subs, s ≠ [] ∧ ∀ c ∈ s, isSubChar c = true)
    (htail : ∀ c cs, tail = c :: cs → c ≠ '(') :
    ∀ fuel, subs.length ≤ fuel →
      matchSubsAux fuel (subsRender subs ++ tail) = (subsRender subs, tail) := by
  induction subs with
  | nil =>
    intro fuel hfuel
    simp only [subsRender, List.nil_append]
    cases fuel with
    | zero => cases tail <;> rfl
    | succ fuel =>
      cases tail with
      | nil => rfl
      | cons c cs =>
        have hc := htail c cs rfl
        unfold matchSubsAux
        dsimp only
        rw [if_neg hc]
  | cons s ss ih =>
    intro fuel hfuel
    cases fuel with
    | zero => simp at hfuel
    | succ fuel =>
      have hs := hwf s (by simp)
      have hss : ∀ x ∈ ss, x ≠ [] ∧ ∀ c ∈ x, isSubChar c = true :=
        fun x hx => hwf x (by simp [hx])
      have hshape : subsRender (s :: ss) ++ tail =
          '(' :: (s ++ ')' :: (subsRender ss ++ tail)) := by
        simp [subsRender]
      rw [hshape]
      unfold matchSubsAux
      dsimp only
      rw [if_pos rfl]
      have hsplit := takeWhile_app_all isSubChar s (')' :: (subsRender ss ++ tail))
        hs.2 (fun c cs h => by
          cases h
          decide)
      rw [hsplit.1, hsplit.2]
      have hne : s.isEmpty = false := by
        cases s with
        | nil => exact absurd rfl hs.1
        | cons a as => rfl
      rw [hne]
      simp only [Bool.false_eq_true, if_false, if_true]
      rw [ih hss fuel (by simpa using Nat.le_of_succ_le_succ hfuel)]
      simp [subsRender]

theorem matchSubs_render (subs : List (List Char)) (tail : List Char)
    (hwf : ∀ s ∈ subs, s ≠ [] ∧ ∀ c ∈ s, isSubChar c = true)
    (htail : ∀ c cs, tail = c :: cs → c ≠ '(') :
    matchSubs (subsRender subs ++ tail) = (subsRender subs, tail) := by
  unfold matchSubs
  apply matchSubsAux_render subs tail hwf htail
  have h1 := subsRender_length_ge subs
  have h2 : (subsRender subs).length ≤ (subsRender subs ++ tail).length := by
    simp
  omega

theorem restHeadNotP (f : Option (List Char)) (subs : List (List Char))
    (tail : List Char) (p : Char → Bool) (hdot : p '.' = false)
    (hparen : p '(' = false)
    (htail : ∀ c cs, tail = c :: cs → p c = false) :
    ∀ c cs, fracRender f ++ (subsRender subs ++ tail) = c :: cs → p c = false := by
  intro c cs h
  cases f with
  | some l =>
    simp only [fracRender, List.cons_append, List.cons.injEq] at h
    rw [← h.1]
    exact hdot
  | none =>
    simp only [fracRender, List.nil_append] at h
    cases subs with
    | cons s ss =>
      simp only [subsRender, List.cons_append, List.cons.injEq] at h
      rw [← h.1]
      exact hparen
    | nil =>
      simp only [subsRender, List.nil_append] at h
      exact htail c cs h

theorem subsTail_head_frac (subs : List (List Char)) (tail : List Char)
    (htail : ∀ c cs, tail = c :: cs → c.isDigit = false ∧ c ≠ '.') :
    ∀ c cs, subsRender subs ++ tail = c :: cs → c.isDigit = false ∧ c ≠ '.' := by
  intro c cs h
  cases subs with
  | cons s ss =>
    simp only [subsRender, List.cons_append, List.cons.injEq] at h
    rw [← h.1]
    exact ⟨by decide, by decide⟩
  | nil =>
    simp only [subsRender, List.nil_append] at h
    exact htail c cs h

theorem digits_split (n : ValidNum) (hn : n.Wf) (tail : List Char)
    (htail : ∀ c cs, tail = c :: cs → c.isDigit = false) :
    (n.render ++ tail).takeWhile Char.isDigit = n.intPart ∧
    (n.render ++ tail).dropWhile Char.isDigit =
      fracRender n.frac ++ (subsRender n.subs ++ tail) := by
  have hshape : n.render ++ tail =
      n.intPart ++ (fracRender n.frac ++ (subsRender n.subs ++ tail)) := by
    simp [ValidNum.render, List.append_assoc]
  rw [hshape]
  exact takeWhile_app_all Char.isDigit _ _ hn.2.1
    (restHeadNotP n.frac n.subs tail Char.isDigit (by decide) (by decide) htail)

theorem intPart_not_empty {n : ValidNum} (hn : n.Wf) :
    n.intPart.isEmpty = false := by
  cases hi : n.intPart with
  | nil => exact absurd hi hn.1
  | cons a as => rfl

theorem matchCore_render_nil (n : ValidNum) (hn : n.Wf) :
    matchCore n.render = some ⟨n.render, []⟩ := by
  have hd := digits_split n hn [] (fun c cs h => nomatch h)
  rw [List.append_nil] at hd
  unfold matchCore
  rw [hd.1, hd.2]
  dsimp only
  rw [intPart_not_empty hn]
  simp only [Bool.false_eq_true, if_false]
  rw [matchFrac_render n.frac (subsRender n.subs ++ []) hn.2.2.1
    (subsTail_head_frac n.subs [] (fun c cs h => nomatch h))]
  dsimp only
  rw [matchSubs_render n.subs [] hn.2.2.2 (fun c cs h => nomatch h)]
  dsimp only
  simp [ValidNum.render, List.append_assoc]

theorem matchCore_render_sfx (n : ValidNum) (hn : n.Wf) (L : List Char)
    (hLne : L ≠ []) (hLw : ∀ c ∈ L, isWordChar c = true) :
    matchCore (n.render ++ ' ' :: L) = some ⟨n.render, L⟩ := by
  have htail : ∀ c cs, (' ' :: L) = c :: cs → c.isDigit = false := by
    intro c cs h
    cases h
    decide
  have hd := digits_split n hn (' ' :: L) htail
  unfold matchCore
  rw [hd.1, hd.2]
  dsimp only
  rw [intPart_not_empty hn]
  simp only [Bool.false_eq_true, if_false]
  rw [matchFrac_render n.frac (subsRender n.subs ++ ' ' :: L) hn.2.2.1
    (subsTail_head_frac n.subs (' ' :: L)
      (fun c cs h => by cases h; exact ⟨by decide, by decide⟩))]
  dsimp only
  rw [matchSubs_render n.subs (' ' :: L) hn.2.2.2
    (fun c cs h => by cases h; decide)]
  dsimp only
  have hLhead : ∀ c cs, L = c :: cs → isSpaceChar c = false :=
    fun c cs h => not_space_of_word (hLw c (by rw [h]; simp))
  have hsp : (' ' :: L).takeWhile isSpaceChar = [' '] := by
    rw [List.takeWhile_cons]
    have h1 : isSpaceChar ' ' = true := by decide
    rw [h1]
    simp only [if_true]
    cases hL : L with
    | nil => rfl
    | cons c cs =>
      rw [List.takeWhile_cons, hLhead c cs hL]
      rfl
  have hdp : (' ' :: L).dropWhile isSpaceChar = L := by
    rw [List.dropWhile_cons]
    have h1 : isSpaceChar ' ' = true := by decide
    rw [h1]
    simp only [if_true]
    cases hL : L with
    | nil => rfl
    | cons c cs =>
      rw [List.dropWhile_cons, hLhead c cs hL]
      simp
  rw [hsp, hdp]
  have hLe : L.isEmpty = false := by
    cases hL : L with
    | nil => exact absurd hL hLne
    | cons c cs => rfl
  rw [hLe]
  have hLall : L.all isWordChar = true := List.all_eq_true.2 hLw
  rw [hLall]
  simp [ValidNum.render, List.append_assoc]

theorem matchBase_render (n : ValidNum) (hn : n.Wf) :
    matchBase n.render = some (n.intPart ++ fracRender n.frac, subsRender n.subs) := by
  have hd := digits_split n hn [] (fun c cs h => nomatch h)
  rw [List.append_nil] at hd
  unfold matchBase
  rw [hd.1, hd.2]
  dsimp only
  rw [intPart_not_empty hn]
  simp only [Bool.false_eq_true, if_false]
  rw [matchFrac_render n.frac (subsRender n.subs ++ []) hn.2.2.1
    (subsTail_head_frac n.subs [] (fun c cs h => nomatch h))]
  dsimp only
  rw [matchSubs_render n.subs [] hn.2.2.2 (fun c cs h => nomatch h)]
  dsimp only
  simp

theorem space_cons_split (X : List Char)
    (hX : ∀ c cs, X = c :: cs → isSpaceChar c = false) :
    (' ' :: X).takeWhile isSpaceChar = [' '] ∧
    (' ' :: X).dropWhile isSpaceChar = X := by
  have h := takeWhile_app_all isSpaceChar [' '] X
    (by intro x hx; simp at hx; rw [hx]; decide) hX
  simpa using h

theorem render_head_digit {n : ValidNum} (hn : n.Wf) :
    ∀ c cs, n.render = c :: cs → c.isDigit = true := by
  intro c cs h
  cases hi : n.intPart with
  | nil => exact absurd hi hn.1
  | cons a as =>
    have hsh : n.render = a :: (as ++ (fracRender n.frac ++ subsRender n.subs)) := by
      simp [ValidNum.render, hi]
    rw [hsh] at h
    have hac : a = c := by
      have := List.cons.inj h
      exact this.1
    rw [← hac]
    exact hn.2.1 a (by rw [hi]; simp)

theorem matchWithPfx_LN (n : ValidNum) (hn : n.Wf) (L : List Char)
    (hLne : L ≠ []) (hLw : ∀ c ∈ L, isWordChar c = true) :
    matchWithPfx (L ++ ' ' :: n.render) = some ⟨L, n.render, []⟩ := by
  unfold matchWithPfx
  have hsplit := takeWhile_app_all isWordChar L (' ' :: n.render) hLw
    (fun c cs h => by cases h; decide)
  rw [hsplit.1, hsplit.2]
  dsimp only
  have hLe : L.isEmpty = false := by
    cases hL : L with
    | nil => exact absurd hL hLne
    | cons c cs => rfl
  rw [hLe]
  simp only [Bool.false_eq_true, if_false]
  have hsp := space_cons_split n.render
    (fun c cs h => not_space_of_word (wordChar_of_digit (render_head_digit hn c cs h)))
  rw [hsp.1, hsp.2]
  rw [matchCore_render_nil n hn]
  rfl

theorem matchCore_no_digit_head (X : List Char)
    (hX : ∀ c cs, X = c :: cs → c.isDigit = false) :
    matchCore X = none := by
  have ht : X.takeWhile Char.isDigit = [] := by
    cases hx : X with
    | nil => rfl
    | cons c cs =>
      rw [List.takeWhile_cons, hX c cs hx]
      rfl
  unfold matchCore
  rw [ht]
  rfl

theorem matchWithPfx_NL (n : ValidNum) (hn : n.Wf) (L : List Char)
    (_hLne : L ≠ []) (hLw : ∀ c ∈ L, isWordChar c = true)
    (hLnd : ∀ c ∈ L, c.isDigit = false) :
    matchWithPfx (n.render ++ ' ' :: L) = none := by
  have hw : ∀ c ∈ n.intPart, isWordChar c = true :=
    fun c hc => wordChar_of_digit (hn.2.1 c hc)
  cases hf : n.frac with
  | some f =>
    have hshape : n.render ++ ' ' :: L =
        n.intPart ++ ('.' :: (f ++ (subsRender n.subs ++ ' ' :: L))) := by
      simp [ValidNum.render, hf, fracRender, List.append_assoc]
    rw [hshape]
    unfold matchWithPfx
    have hsplit := takeWhile_app_all isWordChar n.intPart
      ('.' :: (f ++ (subsRender n.subs ++ ' ' :: L))) hw
      (fun c cs h => by cases h; decide)
    rw [hsplit.1, hsplit.2]
    dsimp only
    rw [intPart_not_empty hn]
    simp only [Bool.false_eq_true, if_false]
    have hns : isSpaceChar '.' = false := by decide
    rw [List.takeWhile_cons, hns]
    rfl
  | none =>
    cases hsubs : n.subs with
    | cons s ss =>
      have hshape : n.render ++ ' ' :: L =
          n.intPart ++ ('(' :: (s ++ ')' :: (subsRender ss ++ ' ' :: L))) := by
        simp [ValidNum.render, hf, hsubs, fracRender, subsRender, List.append_assoc]
      rw [hshape]
      unfold matchWithPfx
      have hsplit := takeWhile_app_all isWordChar n.intPart
        ('(' :: (s ++ ')' :: (subsRender ss ++ ' ' :: L))) hw
        (fun c cs h => by cases h; decide)
      rw [hsplit.1, hsplit.2]
      dsimp only
      rw [intPart_not_empty hn]
      simp only [Bool.false_eq_true, if_false]
      have hns : isSpaceChar '(' = false := by decide
      rw [List.takeWhile_cons, hns]
      rfl
    | nil =>
      have hshape : n.render ++ ' ' :: L = n.intPart ++ (' ' :: L) := by
        simp [ValidNum.render, hf, hsubs, fracRender, subsRender]
      rw [hshape]
      unfold matchWithPfx
      have hsplit := takeWhile_app_all isWordChar n.intPart (' ' :: L) hw
        (fun c cs h => by cases h; decide)
      rw [hsplit.1, hsplit.2]
      dsimp only
      rw [intPart_not_empty hn]
      simp only [Bool.false_eq_true, if_false]
      have hsp := space_cons_split L
        (fun c cs h => not_space_of_word (hLw c (by rw [h]; simp)))
      rw [hsp.1, hsp.2]
      rw [matchCore_no_digit_head L (fun c cs h => hLnd c (by rw [h]; simp))]
      rfl

theorem matchCodePattern_NL (n : ValidNum) (hn : n.Wf) (L : List Char)
    (hLne : L ≠ []) (hLw : ∀ c ∈ L, isWordChar c = true)
    (hLnd : ∀ c ∈ L, c.isDigit = false) :
    matchCodePattern (n.render ++ ' ' :: L) = some ⟨[], n.render, L⟩ := by
  unfold matchCodePattern
  rw [matchWithPfx_NL n hn L hLne hLw hLnd]
  dsimp only
  rw [matchCore_render_sfx n hn L hLne hLw]
  rfl

theorem matchCodePattern_LN (n : ValidNum) (hn : n.Wf) (L : List Char)
    (hLne : L ≠ []) (hLw : ∀ c ∈ L, isWordChar c = true) :
    matchCodePattern (L ++ ' ' :: n.render) = some ⟨L, n.render, []⟩ := by
  unfold matchCodePattern
  rw [matchWithPfx_LN n hn L hLne hLw]

theorem isFourDigits_space_false (xs ys : List Char) :
    isFourDigits (xs ++ ' ' :: ys) = false := by
  have hall : (xs ++ ' ' :: ys).all Char.isDigit = false := by
    cases h : (xs ++ ' ' :: ys).all Char.isDigit with
    | false => rfl
    | true =>
      have := List.all_eq_true.1 h ' ' (by simp)
      exact absurd this (by decide)
  unfold isFourDigits
  rw [hall, Bool.and_false]

/-- Claim C8: for every well-formed statute number `N` (digits, optional
`.digits`, subdivision groups) and statute letter pair
`L ∈ {PC, HS, VC, BP, WI, FC}`, the strings `"N L"` and `"L N"` parse to
the same normalized code, subdivision and statute type.  The two
`cleanInput` hypotheses say the rendered strings are already trimmed and
upper-case — true of every such `N`/`L` with upper-case subdivision
letters, and discharged by computation at any concrete instance. -/
theorem parseCodeString_prefix_suffix_comm (n : ValidNum) (L : String)
    (hn : n.Wf) (hL : L ∈ (["PC", "HS", "VC", "BP", "WI", "FC"] : List String))
    (h1 : cleanInput (String.mk (n.render ++ ' ' :: L.data)) =
      String.mk (n.render ++ ' ' :: L.data))
    (h2 : cleanInput (String.mk (L.data ++ ' ' :: n.render)) =
      String.mk (L.data ++ ' ' :: n.render)) :
    (parseCodeString (String.mk (n.render ++ ' ' :: L.data))).normalizedCode =
      (parseCodeString (String.mk (L.data ++ ' ' :: n.render))).normalizedCode ∧
    (parseCodeString (String.mk (n.render ++ ' ' :: L.data))).subdivision =
      (parseCodeString (String.mk (L.data ++ ' ' :: n.render))).subdivision ∧
    (parseCodeString (String.mk (n.render ++ ' ' :: L.data))).statute =
      (parseCodeString (String.mk (L.data ++ ' ' :: n.render))).statute := by
  have hLfacts : L.data ≠ [] ∧ (∀ c ∈ L.data, isWordChar c = true) ∧
      (∀ c ∈ L.data, c.isDigit = false) := by
    fin_cases hL <;> refine ⟨by decide, by decide, by decide⟩
  obtain ⟨hLne, hLw, hLnd⟩ := hLfacts
  have e1 : parseCodeString (String.mk (n.render ++ ' ' :: L.data)) =
      { rawCode := String.mk (n.render ++ ' ' :: L.data)
        normalizedCode := String.mk (n.intPart ++ fracRender n.frac)
        statute := statuteOf "" L
        subdivision := if (subsRender n.subs).isEmpty then none
          else some (String.mk (subsRender n.subs)) } := by
    unfold parseCodeString
    rw [h1]
    dsimp only
    rw [isFourDigits_space_false]
    simp only [Bool.false_eq_true, if_false]
    rw [matchCodePattern_NL n hn L.data hLne hLw hLnd]
    dsimp only
    rw [matchBase_render n hn]
  have e2 : parseCodeString (String.mk (L.data ++ ' ' :: n.render)) =
      { rawCode := String.mk (L.data ++ ' ' :: n.render)
        normalizedCode := String.mk (n.intPart ++ fracRender n.frac)
        statute := statuteOf L ""
        subdivision := if (subsRender n.subs).isEmpty then none
          else some (String.mk (subsRender n.subs)) } := by
    unfold parseCodeString
    rw [h2]
    dsimp only
    rw [isFourDigits_space_false]
    simp only [Bool.false_eq_true, if_false]
    rw [matchCodePattern_LN n hn L.data hLne hLw]
    dsimp only
    rw [matchBase_render n hn]
  rw [e1, e2]
  refine ⟨rfl, rfl, ?_⟩
  show statuteOf "" L = statuteOf L ""
  fin_cases hL <;> decide

/-- Concrete instance for the commutativity theorem: `N = 667.5(C)`,
`L = PC`. -/
def numSixSixSeven : ValidNum :=
  { intPart := ['6', '6', '7'], frac := some ['5'], subs := [['C']] }

theorem parseCodeString_comm_witness :
    (numSixSixSeven.Wf ∧
     "PC" ∈ (["PC", "HS", "VC", "BP", "WI", "FC"] : List String) ∧
     cleanInput (String.mk (numSixSixSeven.render ++ ' ' :: "PC".data)) =
       String.mk (numSixSixSeven.render ++ ' ' :: "PC".data) ∧
     cleanInput (String.mk ("PC".data ++ ' ' :: numSixSixSeven.render)) =
       String.mk ("PC".data ++ ' ' :: numSixSixSeven.render)) ∧
    ((parseCodeString (String.mk (numSixSixSeven.render ++ ' ' :: "PC".data))).normalizedCode =
       (parseCodeString (String.mk ("PC".data ++ ' ' :: numSixSixSeven.render))).normalizedCode ∧
     (parseCodeString (String.mk (numSixSixSeven.render ++ ' ' :: "PC".data))).subdivision =
       (parseCodeString (String.mk ("PC".data ++ ' ' :: numSixSixSeven.render))).subdivision ∧
     (parseCodeString (String.mk (numSixSixSeven.render ++ ' ' :: "PC".data))).statute =
       (parseCodeString (String.mk ("PC".data ++ ' ' :: numSixSixSeven.render))).statute) := by
  have hn : numSixSixSeven.Wf :=
    ⟨by decide, by decide,
     show (['5'] : List Char) ≠ [] ∧ ∀ c ∈ (['5'] : List Char), c.isDigit = true by
       decide,
     by decide⟩
  have hL : "PC" ∈ (["PC", "HS", "VC", "BP", "WI", "FC"] : List String) := by decide
  have h1 : cleanInput (String.mk (numSixSixSeven.render ++ ' ' :: "PC".data)) =
      String.mk (numSixSixSeven.render ++ ' ' :: "PC".data) := by decide
  have h2 : cleanInput (String.mk ("PC".data ++ ' ' :: numSixSixSeven.render)) =
      String.mk ("PC".data ++ ' ' :: numSixSixSeven.render) := by decide
  exact ⟨⟨hn, hL, h1, h2⟩,
    parseCodeString_prefix_suffix_comm numSixSixSeven "PC" hn hL h1 h2⟩

example :
    (parseCodeString "667.5(C) PC").normalizedCode =
      (parseCodeString "PC 667.5(C)").normalizedCode ∧
    (parseCodeString "667.5(C) PC").subdivision =
      (parseCodeString "PC 667.5(C)").subdivision ∧
    (parseCodeString "667.5(C) PC").statute =
      (parseCodeString "PC 667.5(C)").statute := by decide

example :
    (parseCodeString "23152 VC").statute = "VC" ∧
    (parseCodeString "VC 23152").statute = "VC" := by decide

end K12
